import Mathlib

/-!
Verification development for the `xlsx_to_sql` converter
(`src/cci_sql_xlsx_converter/xlsx_to_sql.py`).

The engine of `xlsx_to_sql` is embedded shallowly:

* an XLSX cell value (`openpyxl` cell `.value`) becomes `CellValue`
  (`None`, strings, ints, booleans, and floats; a float is modelled as the
  exact rational `num / den` it denotes, kept as an unreduced pair so all
  operations stay kernel-computable);
* a header-cell comment becomes `Comment`: `tagged md` stands for a comment
  whose text is `COMMENT_PREFIX` followed by a JSON object decoding to `md`,
  `untagged t` stands for a comment text `t` that fails the prefix check
  (line 106 of the source); per-field metadata decoded from the JSON payload
  becomes `FieldMetadata` where `pk` / `not_null` record the Python
  truthiness of the decoded attributes;
* the JSON mapping document from `workbook.properties.description` becomes an
  insertion-ordered association list of `JVal` values (Python dicts preserve
  insertion order; `dictSet` is Python dict assignment);
* `raise` / `int()` failures become `Except Err`; the printing of warnings
  (gated by `--suppress-warnings`, an I/O concern) is modelled by returning
  the list of warning texts that the run emits;
* writing the two output files at the end of a successful run becomes the
  `Event.writeSqlFile` / `Event.writeYamlFile` events of `runEvents`.

In the source, `mapping_new[block_name] = mapping_original[block_name]`
aliases the original entry and the subsequent `['fields']` assignment mutates
it through the alias; since a consumed original entry is never read again
afterwards (worksheet titles are the table names and the warning loop only
echoes entries that were never consumed), the functional update used here is
observationally equivalent.
-/

namespace IceTea

/-- Python truthiness-carrying cell values as produced by openpyxl.
A float is modelled as the exact rational `num / den` it denotes. -/
inductive CellValue where
  | none
  | str (s : String)
  | int (n : Int)
  | float (num : Int) (den : Nat)
  | bool (b : Bool)
deriving DecidableEq

/-- Per-field metadata decoded from a header-cell comment
(the JSON payload after `COMMENT_PREFIX`).  `not_null` and `pk` record the
Python truthiness of the decoded attributes (the default metadata stores
`pk: 0`, which is falsy). -/
structure FieldMetadata where
  type : String
  not_null : Bool
  pk : Bool
deriving DecidableEq

/-- A header-cell comment: `tagged md` is a comment whose text is
`COMMENT_PREFIX` followed by a JSON object decoding to `md`; `untagged t`
is a comment text `t` that does not start with `COMMENT_PREFIX`. -/
inductive Comment where
  | tagged (metadata : FieldMetadata)
  | untagged (text : String)
deriving DecidableEq

/-- One spreadsheet cell: its value and its optional attached comment. -/
structure Cell where
  value : CellValue
  comment : Option Comment
deriving DecidableEq

/-- One worksheet: its title and its grid of rows (row 1 is the header). -/
structure Sheet where
  title : String
  rows : List (List Cell)
deriving DecidableEq

/-- JSON/YAML-representable values of the mapping document. -/
inductive JVal where
  | null
  | str (s : String)
  | int (n : Int)
  | float (num : Int) (den : Nat)
  | bool (b : Bool)
  | list (items : List JVal)
  | obj (attrs : List (String × JVal))

/-- Fatal errors of the run.  `xlsxParseError` is the script's own
`XLSXParseError`; `valueError` is the `ValueError` raised by Python's
`int()` on a non-integer literal (the spec's `TypeCoercionError`);
`typeError` is Python's `TypeError`. -/
inductive Err where
  | xlsxParseError (msg : String)
  | valueError (msg : String)
  | typeError (msg : String)
deriving DecidableEq

/-- Default metadata used when a header cell has no comment
(`DEFAULT_METADATA`, line 50 of the source; its `pk: 0` is falsy). -/
def defaultMetadata : FieldMetadata :=
  { type := "VARCHAR(255)", not_null := false, pk := false }

/-- Python truthiness of a cell value (`while cell.value`, `any(...)`). -/
def truthy : CellValue → Bool
  | .none => false
  | .str s => !s.isEmpty
  | .int n => n != 0
  | .float n _ => n != 0
  | .bool b => b

/-- Digits of the fractional part of `rem / den`, at most `fuel` digits
(helper for `floatStr`). -/
def fracDigits : Nat → Nat → Nat → String
  | 0, _, _ => ""
  | _ + 1, 0, _ => ""
  | fuel + 1, rem, den =>
    toString (rem * 10 / den) ++ fracDigits fuel (rem * 10 % den) den

/-- Decimal rendering of the rational `num / den`, approximating Python's
`str()` on floats.  No theorem below depends on its exact output. -/
def floatStr (num : Int) (den : Nat) : String :=
  let sgn := if num < 0 then "-" else ""
  let n := num.natAbs
  sgn ++ toString (n / den) ++ "." ++
    (if n % den == 0 then "0" else fracDigits 20 (n % den) den)

/-- Python `str()` on a cell value (used by f-string interpolation and by
the `str(value)` coercion at line 173 of the source). -/
def pyStr : CellValue → String
  | .none => "None"
  | .str s => s
  | .int n => toString n
  | .float n d => floatStr n d
  | .bool b => if b then "True" else "False"

/-- The numeric content of a cell value, as an unreduced fraction
(Python compares ints, floats and booleans numerically). -/
def numVal : CellValue → Option (Int × Nat)
  | .int n => some (n, 1)
  | .float n d => some (n, d)
  | .bool b => some (if b then 1 else 0, 1)
  | _ => Option.none

/-- Python `==` on cell values: numeric values compare by value across
types, strings compare as strings, `None` equals only `None`. -/
def pyEq (a b : CellValue) : Bool :=
  match numVal a, numVal b with
  | some (x, p), some (y, q) => x * (q : Int) == y * (p : Int)
  | _, _ =>
    match a, b with
    | .str s, .str t => s == t
    | .none, .none => true
    | _, _ => false

/-- Digit accumulation for `parsePyIntStr`; permits single underscores
between digits as Python's `int()` does. -/
def parseDigitsAux (acc : Nat) : List Char → Option Nat
  | [] => some acc
  | '_' :: c :: cs =>
    if c.isDigit then parseDigitsAux (acc * 10 + (c.toNat - 48)) cs else Option.none
  | c :: cs =>
    if c.isDigit then parseDigitsAux (acc * 10 + (c.toNat - 48)) cs else Option.none

/-- A nonempty digit string (with optional grouping underscores). -/
def parseDigits : List Char → Option Nat
  | c :: cs => if c.isDigit then parseDigitsAux (c.toNat - 48) cs else Option.none
  | [] => Option.none

/-- Surrounding-whitespace removal on a character list (Python `int()`
strips whitespace before parsing). -/
def trimChars (l : List Char) : List Char :=
  ((l.dropWhile Char.isWhitespace).reverse.dropWhile Char.isWhitespace).reverse

/-- Python `int()` applied to a string: optional surrounding whitespace,
optional sign, then digits. -/
def parsePyIntStr (s : String) : Option Int :=
  match trimChars s.data with
  | '+' :: cs => (parseDigits cs).map Int.ofNat
  | '-' :: cs => (parseDigits cs).map (fun n => -(Int.ofNat n))
  | cs => (parseDigits cs).map Int.ofNat

/-- Python `int()` on a cell value (line 171 of the source).  On a float it
truncates toward zero (`Int.tdiv` is truncating division); on a
non-integer-literal string it raises `ValueError`. -/
def pyInt : CellValue → Except Err Int
  | .none => .error (.typeError "int() argument must be a string or a number, not NoneType")
  | .bool b => .ok (if b then 1 else 0)
  | .int n => .ok n
  | .float n d => .ok (Int.tdiv n (d : Int))
  | .str s =>
    match parsePyIntStr s with
    | some n => .ok n
    | Option.none =>
      .error (.valueError ("invalid literal for int() with base 10: \x27" ++ s ++ "\x27"))

/-- A coerced value ready for SQL rendering: after line 170-173 of the
source a value is either a Python `int` or a Python `str`. -/
inductive SqlVal where
  | vInt (n : Int)
  | vStr (s : String)
deriving DecidableEq

/-- Line 167 of the source: `if value is None: value = ''`. -/
def noneToEmpty : CellValue → CellValue
  | .none => .str ""
  | v => v

/-- Per-cell type coercion (lines 167-173): `INTEGER` fields go through
`int()`, every other declared type goes through `str()`. -/
def coerceValue (targetType : String) (raw : CellValue) : Except Err SqlVal :=
  let v := noneToEmpty raw
  if targetType = "INTEGER" then
    match pyInt v with
    | .error e => .error e
    | .ok n => .ok (.vInt n)
  else .ok (.vStr (pyStr v))

/-- Literal rendering of one coerced value (lines 180-181): strings are
single-quote-wrapped verbatim, ints are bare. -/
def renderOne : SqlVal → String
  | .vStr s => "\x27" ++ s ++ "\x27"
  | .vInt n => toString n

/-- Comma-joining of a value tuple (lines 178-181: a comma before every
value except the first). -/
def renderVals : List SqlVal → String
  | [] => ""
  | [v] => renderOne v
  | v :: rest => renderOne v ++ "," ++ renderVals rest

/-- One INSERT statement (line 177 and 182). -/
def insertLine (tableName : String) (vals : List SqlVal) : String :=
  "INSERT INTO \"" ++ tableName ++ "\" VALUES(" ++ renderVals vals ++ ");\n"

/-- `sheet.cell(row=i+1, column=j+1).value` with 0-based `j` over a data
row: absent cells read as `None`. -/
def cellValueAt (row : List Cell) (i : Nat) : CellValue :=
  match row.get? i with
  | some c => c.value
  | Option.none => .none

/-- The coerced value tuple of one retained data row (lines 163-175),
reading column `i`, `i+1`, ... for the successive fields. -/
def rowValues (row : List Cell) : List (CellValue × FieldMetadata) → Nat → Except Err (List SqlVal)
  | [], _ => .ok []
  | (_, md) :: fs, i =>
    match coerceValue md.type (cellValueAt row i) with
    | .error e => .error e
    | .ok v => (rowValues row fs (i + 1)).map (fun vs => v :: vs)

/-- The INSERT statements contributed by the data rows (lines 156-182):
a row all of whose cells are falsy is skipped, every other row yields one
INSERT statement. -/
def rowsSql (tableName : String) (fields : List (CellValue × FieldMetadata)) :
    List (List Cell) → Except Err String
  | [] => .ok ""
  | row :: rest =>
    if row.any (fun c => truthy c.value) then
      match rowValues row fields 0 with
      | .error e => .error e
      | .ok vals => (rowsSql tableName fields rest).map (fun t => insertLine tableName vals ++ t)
    else rowsSql tableName fields rest

/-- Warning emitted for a header cell without a comment (line 112). -/
def noCommentWarning (fieldName : CellValue) : String :=
  "WARNING: No comment found for field " ++ pyStr fieldName ++
    ". Using default type: VARCHAR(255), not primary key."

/-- Header scan (lines 91-118 of the source): walk the header row left to
right while the cell value is truthy, decoding each cell's comment into
metadata; a comment failing the prefix check aborts the run. -/
def collectFields : List Cell → List String × Except Err (List (CellValue × FieldMetadata))
  | [] => ([], .ok [])
  | c :: rest =>
    if truthy c.value then
      match c.comment with
      | some (Comment.untagged txt) =>
        ([], .error (.xlsxParseError ("Comment verification failed: \x27" ++ txt ++ "\x27")))
      | some (Comment.tagged md) =>
        let (ws, r) := collectFields rest
        (ws, r.map (fun fs => (c.value, md) :: fs))
      | Option.none =>
        let (ws, r) := collectFields rest
        (noCommentWarning c.value :: ws, r.map (fun fs => (c.value, defaultMetadata) :: fs))
    else ([], .ok [])

/-- Message of the multiple-primary-keys error (line 131). -/
def multiPkMsg (tableName : String) : String :=
  "Table " ++ tableName ++ ": multiple primary key fields detected!"

/-- Message of the missing-primary-key error (line 150). -/
def noPkMsg (tableName : String) : String :=
  "Table " ++ tableName ++ ": no primary key field detected!"

/-- One column line of the DDL (lines 136-144): the name is unquoted when
the loop's `primary_key_field == field_name` check succeeds, double-quoted
otherwise; then the declared type, optional ` NOT NULL`, and `,\n`. -/
def colLine (isPk : Bool) (name : CellValue) (md : FieldMetadata) : String :=
  (if isPk then "\t" ++ pyStr name else "\t\"" ++ pyStr name ++ "\"") ++
    " " ++ md.type ++ (if md.not_null then " NOT NULL" else "") ++ ",\n"

/-- The column loop of the DDL builder (lines 124-144): threads the
detected primary-key field left to right, errors as soon as a second
pk-flagged field is seen, collects the text of the column lines and the
list of field names that were emitted quoted (`mapping_fields`). -/
def buildColumns (tableName : String) (pk : Option CellValue) :
    List (CellValue × FieldMetadata) → Except Err (String × Option CellValue × List CellValue)
  | [] => .ok ("", pk, [])
  | (name, md) :: rest =>
    if md.pk && pk.isSome then .error (.xlsxParseError (multiPkMsg tableName))
    else
      let pk' := if md.pk then some name else pk
      let isPk := match pk' with | some p => pyEq p name | Option.none => false
      match buildColumns tableName pk' rest with
      | .error e => .error e
      | .ok (txt, pkFinal, mfs) =>
        .ok (colLine isPk name md ++ txt, pkFinal, if isPk then mfs else name :: mfs)

/-- The full CREATE TABLE statement of one worksheet (lines 122-153),
together with `mapping_fields`; fails when zero or several fields carry a
truthy `pk` flag. -/
def buildTable (tableName : String) (fields : List (CellValue × FieldMetadata)) :
    Except Err (String × List CellValue) :=
  match buildColumns tableName Option.none fields with
  | .error e => .error e
  | .ok (txt, pkFinal, mfs) =>
    match pkFinal with
    | some p =>
      .ok ("CREATE TABLE \"" ++ tableName ++ "\" (\n" ++ txt ++
             "  PRIMARY KEY (" ++ pyStr p ++ ")\n" ++ ");\n", mfs)
    | Option.none => .error (.xlsxParseError (noPkMsg tableName))

/-- First-match lookup in an insertion-ordered dictionary
(Python `d[k]` / `k in d.keys()`). -/
def lookupD {α : Type} : List (String × α) → String → Option α
  | [], _ => Option.none
  | (k', v) :: rest, k => if k' = k then some v else lookupD rest k

/-- Python dict assignment `d[k] = v`: replace in place when the key is
present, append at the end otherwise. -/
def dictSet {α : Type} : List (String × α) → String → α → List (String × α)
  | [], k, v => [(k, v)]
  | (k', v') :: rest, k, v =>
    if k' = k then (k, v) :: rest else (k', v') :: dictSet rest k v

/-- Python `d.pop(k, None)`: the popped value (if any) and the remaining
dictionary. -/
def popKey (k : String) : List (String × JVal) → Option JVal × List (String × JVal)
  | [] => (Option.none, [])
  | (k', v) :: rest =>
    if k' = k then (some v, rest)
    else
      let (r, l) := popKey k rest
      (r, (k', v) :: l)

/-- Python item assignment `entry['fields'] = v`: only dicts support it. -/
def setField (entry : JVal) (k : String) (v : JVal) : Except Err JVal :=
  match entry with
  | .obj kvs => .ok (.obj (dictSet kvs k v))
  | _ => .error (.typeError "object does not support item assignment")

/-- Does `prelist` start the list `l`? (helper for substring search). -/
def leadsWith : List Char → List Char → Bool
  | [], _ => true
  | _ :: _, [] => false
  | a :: as, b :: bs => a == b && leadsWith as bs

/-- Substring occurrence over character lists (Python `needle in haystack`
for strings). -/
def subIn (needle : List Char) : List Char → Bool
  | [] => needle.isEmpty
  | b :: t => leadsWith needle (b :: t) || subIn needle t

/-- Python `needle in container` for a string needle against a decoded
JSON container: lists compare elements with `==` (only string elements can
match), strings do substring search, dicts check their keys; other values
are not iterable. -/
def pyIn (needle : String) : JVal → Except Err Bool
  | .list items => .ok (items.any fun j => match j with | .str t => t == needle | _ => false)
  | .str t => .ok (subIn needle.data t.data)
  | .obj kvs => .ok (kvs.any fun kv => kv.1 == needle)
  | _ => .error (.typeError "argument is not iterable")

/-- Embedding of a cell value into the mapping document (the raw Python
value stored in the `fields` list). -/
def cellToJVal : CellValue → JVal
  | .none => .null
  | .str s => .str s
  | .int n => .int n
  | .float n d => .float n d
  | .bool b => .bool b

mutual
/-- Python `repr`-style rendering of a decoded JSON value, used by the
orphaned-entry warning's f-string (line 204 echoes the dict). -/
def jRepr : JVal → String
  | .null => "None"
  | .str s => "\x27" ++ s ++ "\x27"
  | .int n => toString n
  | .float n d => floatStr n d
  | .bool b => if b then "True" else "False"
  | .list items => "[" ++ jReprList items ++ "]"
  | .obj kvs => "\x7b" ++ jReprObj kvs ++ "\x7d"

/-- Comma-joined `repr` of list items. -/
def jReprList : List JVal → String
  | [] => ""
  | [j] => jRepr j
  | j :: rest => jRepr j ++ ", " ++ jReprList rest

/-- Comma-joined `repr` of dict items. -/
def jReprObj : List (String × JVal) → String
  | [] => ""
  | [(k, v)] => "\x27" ++ k ++ "\x27: " ++ jRepr v
  | (k, v) :: rest => "\x27" ++ k ++ "\x27: " ++ jRepr v ++ ", " ++ jReprObj rest
end

/-- The reserved key holding the list of tables without mapping data
(line 70 of the source). -/
def twmdKey : String := "__cci_sql_xlsx_converter_tables_without_mapping_data__"

/-- Message of the error raised when the reserved key is absent
(line 72; the spec's `FormatError`). -/
def twmdMissingMsg : String :=
  "Mapping data does not contain list of tables without mapping data (this list must be present even if empty)"

/-- The block key of a table (`'Insert ' + table_name`, line 187). -/
def ikey (tableName : String) : String := "Insert " ++ tableName

/-- Warning emitted when a discovered table has no original mapping entry
and is not declared mapping-less (line 195). -/
def defaultDataWarning (tableName : String) : String :=
  "WARNING: Mapping data for table " ++ tableName ++ " not found. Adding default data."

/-- Warning emitted at finalization for a never-consumed original entry
(line 204), echoing the entry's content. -/
def orphanWarning (blockName : String) (entry : JVal) : String :=
  "WARNING: Mapping data for block " ++ blockName ++
    " not found. It will not be included in the SQL file.\nIf you deleted the corresponding table, ignore this. If you changed the table\x27s name, you\x27ll have to restore the following mapping data (excluding fields):\n" ++
    jRepr entry ++ "\n"

/-- State threaded through the worksheet loop: the (immutable) original
mapping document and reserved list, the consumed flags
(`table_mappings_preserved`), the accumulating new document and the
accumulating SQL text. -/
structure RunState where
  mappingOriginal : List (String × JVal)
  twmd : JVal
  preserved : List (String × Bool)
  mappingNew : List (String × JVal)
  sql : String

/-- Mapping reconciliation for one worksheet (lines 186-196): consume the
original entry and overwrite its `fields`, or silently accept a declared
mapping-less table, or warn and create a default entry. -/
def reconcile (st : RunState) (tableName : String) (mappingFields : List CellValue) :
    List String × Except Err RunState :=
  let blockName := ikey tableName
  let fieldsJ := JVal.list (mappingFields.map cellToJVal)
  match lookupD st.mappingOriginal blockName with
  | some entry =>
    match setField entry "fields" fieldsJ with
    | .error e => ([], .error e)
    | .ok e2 =>
      ([], .ok { st with preserved := dictSet st.preserved blockName true,
                         mappingNew := dictSet st.mappingNew blockName e2 })
  | Option.none =>
    match pyIn tableName st.twmd with
    | .error e => ([], .error e)
    | .ok true => ([], .ok st)
    | .ok false =>
      let defEntry : JVal := .obj [("table", .str tableName), ("fields", fieldsJ)]
      ([defaultDataWarning tableName],
       .ok { st with mappingNew := dictSet st.mappingNew blockName defEntry })

/-- Processing of one worksheet (lines 86-196): header scan, CREATE TABLE,
INSERT statements, mapping reconciliation. -/
def processSheet (st : RunState) (sheet : Sheet) : List String × Except Err RunState :=
  match collectFields (sheet.rows.headD []) with
  | (ws, .error e) => (ws, .error e)
  | (ws, .ok fields) =>
    match buildTable sheet.title fields with
    | .error e => (ws, .error e)
    | .ok (ddl, mappingFields) =>
      match rowsSql sheet.title fields (sheet.rows.drop 1) with
      | .error e => (ws, .error e)
      | .ok ins =>
        match reconcile st sheet.title mappingFields with
        | (ws2, .error e) => (ws ++ ws2, .error e)
        | (ws2, .ok st2) => (ws ++ ws2, .ok { st2 with sql := st.sql ++ ddl ++ ins })

/-- The worksheet loop (line 86). -/
def processSheets (st : RunState) : List Sheet → List String × Except Err RunState
  | [] => ([], .ok st)
  | sheet :: rest =>
    match processSheet st sheet with
    | (ws, .error e) => (ws, .error e)
    | (ws, .ok st') =>
      let (ws', r) := processSheets st' rest
      (ws ++ ws', r)

/-- Finalization warnings (lines 202-204): one orphan warning per original
entry whose consumed flag never became true, in document order. -/
def orphanWarnings (morig : List (String × JVal)) (preserved : List (String × Bool)) :
    List String :=
  morig.foldr
    (fun kv acc =>
      match lookupD preserved kv.1 with
      | some true => acc
      | _ => orphanWarning kv.1 kv.2 :: acc)
    []

/-- The run's input: the decoded JSON object from
`workbook.properties.description` and the workbook's worksheets. -/
structure Input where
  description : List (String × JVal)
  sheets : List Sheet

/-- The run's output on success: the SQL script text and the new mapping
document (as written to the two output files). -/
structure Output where
  sql : String
  mapping : List (String × JVal)

/-- The engine of `xlsx_to_sql` (lines 68-212): pop the reserved list,
process every worksheet, finalize.  Returns the warnings emitted (in
order) together with either the fatal error or the two outputs. -/
def xlsxToSql (input : Input) : List String × Except Err Output :=
  match popKey twmdKey input.description with
  | (Option.none, _) => ([], .error (.xlsxParseError twmdMissingMsg))
  | (some twmd, morig) =>
    let st0 : RunState :=
      { mappingOriginal := morig, twmd := twmd,
        preserved := morig.map (fun kv => (kv.1, false)),
        mappingNew := [], sql := "BEGIN TRANSACTION;\n" }
    match processSheets st0 input.sheets with
    | (ws, .error e) => (ws, .error e)
    | (ws, .ok st) =>
      (ws ++ orphanWarnings st.mappingOriginal st.preserved,
       .ok { sql := st.sql ++ "COMMIT;\n", mapping := st.mappingNew })

/-- Externally visible events of a run, in order: warnings during
processing, then (only on success) the two file writes (lines 206-212:
the output files are written only after every worksheet succeeded). -/
inductive Event where
  | warn (msg : String)
  | writeSqlFile (text : String)
  | writeYamlFile (doc : List (String × JVal))

/-- The event trace of a run together with its final result. -/
def runEvents (input : Input) : List Event × Except Err Unit :=
  match xlsxToSql input with
  | (ws, .error e) => (ws.map .warn, .error e)
  | (ws, .ok out) =>
    (ws.map .warn ++ [.writeSqlFile out.sql, .writeYamlFile out.mapping], .ok ())

/-- The column lines of a run of fields that are all emitted double-quoted. -/
def quotedLines : List (CellValue × FieldMetadata) → String
  | [] => ""
  | f :: fs => colLine false f.1 f.2 ++ quotedLines fs

/-- Metadata of the `Id (pk, INTEGER)` header cell of the Account scenario. -/
def accountIdMeta : FieldMetadata := { type := "INTEGER", not_null := false, pk := true }

/-- Metadata of the `Name (VARCHAR(255))` header cell of the Account scenario. -/
def accountNameMeta : FieldMetadata := { type := "VARCHAR(255)", not_null := false, pk := false }

/-- The worksheet of the Account scenario: header `Id (pk, INTEGER),
Name (VARCHAR(255))` and one data row `1, "Acme"`. -/
def accountSheet : Sheet :=
  { title := "Account",
    rows := [
      [⟨.str "Id", some (.tagged accountIdMeta)⟩, ⟨.str "Name", some (.tagged accountNameMeta)⟩],
      [⟨.int 1, Option.none⟩, ⟨.str "Acme", Option.none⟩]] }

/-- The field list collected from the Account header. -/
def accountFields : List (CellValue × FieldMetadata) :=
  [(.str "Id", accountIdMeta), (.str "Name", accountNameMeta)]

/-- An input holding only the Account worksheet, with `Account` declared
mapping-less so the run emits no warnings. -/
def accountInput : Input :=
  { description := [(twmdKey, .list [.str "Account"])], sheets := [accountSheet] }

/-- The exact SQL text the Account scenario must produce. -/
def accountSql : String :=
  "BEGIN TRANSACTION;\nCREATE TABLE \"Account\" (\n\tId INTEGER,\n\t\"Name\" VARCHAR(255),\n  PRIMARY KEY (Id)\n);\nINSERT INTO \"Account\" VALUES(1,\x27Acme\x27);\nCOMMIT;\n"

/-- A header with two fields both named `Id`, the first pk-flagged. -/
def dupIdFields : List (CellValue × FieldMetadata) :=
  [(.str "Id", { type := "INTEGER", not_null := false, pk := true }),
   (.str "Id", { type := "INTEGER", not_null := false, pk := false })]

/-- A worksheet whose header repeats the primary key's name. -/
def dupIdSheet : Sheet :=
  { title := "T",
    rows := [
      [⟨.str "Id", some (.tagged { type := "INTEGER", not_null := false, pk := true })⟩,
       ⟨.str "Id", some (.tagged { type := "INTEGER", not_null := false, pk := false })⟩]] }

/-- An input for the duplicate-name worksheet whose original document has a
mapping entry (with a passthrough attribute) for table `T`. -/
def dupIdInput : Input :=
  { description := [(twmdKey, .list []),
      ("Insert T", .obj [("table", .str "T"), ("fields", .list [.str "Name"]), ("extra", .int 7)])],
    sheets := [dupIdSheet] }

/-- A worksheet whose only data row holds the single cell `0` (an integer,
neither absent nor empty, but falsy). -/
def zeroRowSheet : Sheet :=
  { title := "T",
    rows := [
      [⟨.str "Id", some (.tagged { type := "INTEGER", not_null := false, pk := true })⟩],
      [⟨.int 0, Option.none⟩]] }

/-- Input wrapping `zeroRowSheet` (table `T` declared mapping-less). -/
def zeroRowInput : Input :=
  { description := [(twmdKey, .list [.str "T"])], sheets := [zeroRowSheet] }

/-- First-run input of the idempotence scenario: Account worksheet, empty
original document. -/
def idemInput : Input :=
  { description := [(twmdKey, .list [])], sheets := [accountSheet] }

/-- The mapping document the first idempotence run produces. -/
def idemMapping : List (String × JVal) :=
  [("Insert Account", .obj [("table", .str "Account"), ("fields", .list [.str "Name"])])]

/-- Second-run input feeding the first run's mapping document verbatim as
the original document (without the reserved list). -/
def idemRerunInput : Input :=
  { description := idemMapping, sheets := [accountSheet] }

/-- Attributes of the original `Insert Account` entry of `carriedInput`. -/
def carriedKvs : List (String × JVal) :=
  [("sf_object", .str "Account"), ("fields", .list [.str "Old"]), ("extra", .int 7)]

/-- An input whose original document carries a mapping entry (with
passthrough attributes) that the Account worksheet consumes. -/
def carriedInput : Input :=
  { description := [(twmdKey, .list []), ("Insert Account", .obj carriedKvs)],
    sheets := [accountSheet] }

/-- The original entry of the orphaned-entry scenario. -/
def orphanEntry : JVal := .obj [("table", .str "Contact"), ("sf_object", .str "Contact")]

/-- Input with an `Insert Contact` entry but no `Contact` worksheet. -/
def orphanInput : Input :=
  { description := [(twmdKey, .list [.str "Account"]), ("Insert Contact", orphanEntry)],
    sheets := [accountSheet] }

/-- An input whose document-level metadata lacks the reserved list. -/
def emptyDescInput : Input := { description := [], sheets := [accountSheet] }

/-- A worksheet whose first header cell holds a falsy value. -/
def falsyHeaderSheet : Sheet :=
  { title := "Bad", rows := [[⟨.str "", Option.none⟩, ⟨.str "X", Option.none⟩]] }

/-- The input of a re-run: the reserved entry re-added in front of a
mapping document, over the same worksheets. -/
def rerunInput (twmd : JVal) (m : List (String × JVal)) (shs : List Sheet) : Input :=
  { description := (twmdKey, twmd) :: m, sheets := shs }

/-- An empty run state used to exercise per-worksheet functions. -/
def emptyRunState : RunState :=
  { mappingOriginal := [], twmd := .list [], preserved := [], mappingNew := [], sql := "" }

/-- The SQL text produced for `zeroRowSheet`: no INSERT at all. -/
def zeroRowSql : String :=
  "BEGIN TRANSACTION;\nCREATE TABLE \"T\" (\n\tId INTEGER,\n  PRIMARY KEY (Id)\n);\nCOMMIT;\n"

/-- The SQL text produced for `dupIdSheet`. -/
def dupSql : String :=
  "BEGIN TRANSACTION;\nCREATE TABLE \"T\" (\n\tId INTEGER,\n\tId INTEGER,\n  PRIMARY KEY (Id)\n);\nCOMMIT;\n"

/-- The mapping document produced for `dupIdInput`. -/
def dupOutMapping : List (String × JVal) :=
  [("Insert T", .obj [("table", .str "T"), ("fields", .list []), ("extra", .int 7)])]

/-- An input that emits a warning (header field without a comment) and then
fails (no primary key). -/
def warnErrInput : Input :=
  { description := [(twmdKey, .list [])],
    sheets := [{ title := "W", rows := [[⟨.str "X", Option.none⟩]] }] }

/-! ### General-purpose lemmas -/

lemma strEmptyApp (s : String) : "" ++ s = s := by
  cases s
  rfl

lemma strAppAssoc (a b c : String) : a ++ b ++ c = a ++ (b ++ c) := by
  cases a
  cases b
  cases c
  show String.mk _ = String.mk _
  simp

lemma pyEq_refl (v : CellValue) : pyEq v v = true := by
  cases v <;> simp [pyEq, numVal]

/-! ### Lemmas about the DDL builder -/

lemma buildColumns_nil (tn : String) (pk : Option CellValue) :
    buildColumns tn pk [] = .ok ("", pk, []) := rfl

lemma buildColumns_cons_none_nopk (tn : String) (name : CellValue) (md : FieldMetadata)
    (rest : List (CellValue × FieldMetadata)) (h : md.pk = false) :
    buildColumns tn Option.none ((name, md) :: rest) =
      match buildColumns tn Option.none rest with
      | .error e => .error e
      | .ok (txt, pkF, mfs) => .ok (colLine false name md ++ txt, pkF, name :: mfs) := by
  simp [buildColumns, h]

lemma buildColumns_cons_some_nopk (tn : String) (p name : CellValue) (md : FieldMetadata)
    (rest : List (CellValue × FieldMetadata)) (h : md.pk = false) (h2 : pyEq p name = false) :
    buildColumns tn (some p) ((name, md) :: rest) =
      match buildColumns tn (some p) rest with
      | .error e => .error e
      | .ok (txt, pkF, mfs) => .ok (colLine false name md ++ txt, pkF, name :: mfs) := by
  simp [buildColumns, h, h2]

lemma buildColumns_cons_pk (tn : String) (name : CellValue) (md : FieldMetadata)
    (rest : List (CellValue × FieldMetadata)) (h : md.pk = true) :
    buildColumns tn Option.none ((name, md) :: rest) =
      match buildColumns tn (some name) rest with
      | .error e => .error e
      | .ok (txt, pkF, mfs) => .ok (colLine true name md ++ txt, pkF, mfs) := by
  simp [buildColumns, h, pyEq_refl]

lemma buildColumns_cons_second_pk (tn : String) (p name : CellValue) (md : FieldMetadata)
    (rest : List (CellValue × FieldMetadata)) (h : md.pk = true) :
    buildColumns tn (some p) ((name, md) :: rest) =
      .error (.xlsxParseError (multiPkMsg tn)) := by
  simp [buildColumns, h]

lemma buildColumns_none_app (tn : String) (fs rest : List (CellValue × FieldMetadata))
    (h : ∀ f ∈ fs, f.2.pk = false) :
    buildColumns tn Option.none (fs ++ rest) =
      match buildColumns tn Option.none rest with
      | .error e => .error e
      | .ok (txt, pkF, mfs) =>
        .ok (quotedLines fs ++ txt, pkF, fs.map Prod.fst ++ mfs) := by
  induction fs with
  | nil =>
    cases hb : buildColumns tn Option.none rest with
    | error e => simp [hb]
    | ok r =>
      obtain ⟨txt, pkF, mfs⟩ := r
      simp [hb, quotedLines, strEmptyApp]
  | cons f fs ih =>
    obtain ⟨name, md⟩ := f
    have hmd : md.pk = false := h (name, md) (List.mem_cons_self _ _)
    have hfs : ∀ f ∈ fs, f.2.pk = false := fun f hf => h f (List.mem_cons_of_mem _ hf)
    rw [List.cons_append, buildColumns_cons_none_nopk tn name md (fs ++ rest) hmd, ih hfs]
    cases hb : buildColumns tn Option.none rest with
    | error e => simp
    | ok r =>
      obtain ⟨txt, pkF, mfs⟩ := r
      simp [quotedLines, strAppAssoc]

lemma buildColumns_some_app (tn : String) (p : CellValue)
    (fs rest : List (CellValue × FieldMetadata))
    (h : ∀ f ∈ fs, f.2.pk = false) (h2 : ∀ f ∈ fs, pyEq p f.1 = false) :
    buildColumns tn (some p) (fs ++ rest) =
      match buildColumns tn (some p) rest with
      | .error e => .error e
      | .ok (txt, pkF, mfs) =>
        .ok (quotedLines fs ++ txt, pkF, fs.map Prod.fst ++ mfs) := by
  induction fs with
  | nil =>
    cases hb : buildColumns tn (some p) rest with
    | error e => simp [hb]
    | ok r =>
      obtain ⟨txt, pkF, mfs⟩ := r
      simp [hb, quotedLines, strEmptyApp]
  | cons f fs ih =>
    obtain ⟨name, md⟩ := f
    have hmd : md.pk = false := h (name, md) (List.mem_cons_self _ _)
    have hname : pyEq p name = false := h2 (name, md) (List.mem_cons_self _ _)
    have hfs : ∀ f ∈ fs, f.2.pk = false := fun f hf => h f (List.mem_cons_of_mem _ hf)
    have hfs2 : ∀ f ∈ fs, pyEq p f.1 = false := fun f hf => h2 f (List.mem_cons_of_mem _ hf)
    rw [List.cons_append, buildColumns_cons_some_nopk tn p name md (fs ++ rest) hmd hname,
      ih hfs hfs2]
    cases hb : buildColumns tn (some p) rest with
    | error e => simp
    | ok r =>
      obtain ⟨txt, pkF, mfs⟩ := r
      simp [quotedLines, strAppAssoc]

lemma buildColumns_some_haspk (tn : String) :
    ∀ (fs : List (CellValue × FieldMetadata)), (∃ f ∈ fs, f.2.pk = true) →
      ∀ p, buildColumns tn (some p) fs = .error (.xlsxParseError (multiPkMsg tn)) := by
  intro fs
  induction fs with
  | nil => rintro ⟨f, hf, _⟩; exact absurd hf (List.not_mem_nil f)
  | cons g fs ih =>
    rintro ⟨f, hf, hfpk⟩ p
    obtain ⟨name, md⟩ := g
    rcases List.mem_cons.mp hf with hEq | hTail
    · subst hEq
      exact buildColumns_cons_second_pk tn p name md fs hfpk
    · cases hmd : md.pk with
      | true => exact buildColumns_cons_second_pk tn p name md fs hmd
      | false =>
        have hrec := ih ⟨f, hTail, hfpk⟩ p
        simp [buildColumns, hmd, hrec]

lemma strAppEmpty (s : String) : s ++ "" = s := by
  cases s
  show String.mk _ = String.mk _
  simp

lemma buildColumns_two_pks (tn : String) :
    ∀ (fs : List (CellValue × FieldMetadata)),
      2 ≤ (fs.filter (fun f => f.2.pk)).length →
      buildColumns tn Option.none fs = .error (.xlsxParseError (multiPkMsg tn)) := by
  intro fs
  induction fs with
  | nil => intro h; simp at h
  | cons g fs ih =>
    intro h
    obtain ⟨name, md⟩ := g
    cases hmd : md.pk with
    | true =>
      have htail : ∃ f ∈ fs, f.2.pk = true := by
        have hlen : 1 ≤ (fs.filter (fun f => f.2.pk)).length := by
          simp [List.filter_cons, hmd] at h
          omega
        obtain ⟨f, hf⟩ := List.exists_mem_of_length_pos hlen
        exact ⟨f, (List.mem_filter.mp hf).1, (List.mem_filter.mp hf).2⟩
      rw [buildColumns_cons_pk tn name md fs hmd,
        buildColumns_some_haspk tn fs htail name]
    | false =>
      have htail : 2 ≤ (fs.filter (fun f => f.2.pk)).length := by
        simpa [List.filter_cons, hmd] using h
      rw [buildColumns_cons_none_nopk tn name md fs hmd, ih htail]

/-! ### Lemmas about the header scan -/

lemma collectFields_names :
    ∀ (header : List Cell) (ws : List String) (fields : List (CellValue × FieldMetadata)),
      collectFields header = (ws, .ok fields) →
      fields.map Prod.fst = (header.takeWhile (fun c => truthy c.value)).map Cell.value := by
  intro header
  induction header with
  | nil =>
    intro ws fields h
    simp [collectFields] at h
    simp [h.2.symm]
  | cons c rest ih =>
    intro ws fields h
    cases hc : truthy c.value with
    | false =>
      simp [collectFields, hc] at h
      simp [List.takeWhile_cons, hc, h.2.symm]
    | true =>
      cases hcm : c.comment with
      | none =>
        cases hrec : collectFields rest with
        | mk ws' r =>
          cases r with
          | error e => simp [collectFields, hc, hcm, hrec, Except.map] at h
          | ok fs' =>
            simp [collectFields, hc, hcm, hrec, Except.map] at h
            obtain ⟨-, h2⟩ := h
            subst h2
            simp [List.takeWhile_cons, hc, ih ws' fs' (by rw [hrec])]
      | some cm =>
        cases cm with
        | untagged txt => simp [collectFields, hc, hcm] at h
        | tagged md =>
          cases hrec : collectFields rest with
          | mk ws' r =>
            cases r with
            | error e => simp [collectFields, hc, hcm, hrec, Except.map] at h
            | ok fs' =>
              simp [collectFields, hc, hcm, hrec, Except.map] at h
              obtain ⟨-, h2⟩ := h
              subst h2
              simp [List.takeWhile_cons, hc, ih ws' fs' (by rw [hrec])]

lemma processSheet_noPk_of_header_falsy (st : RunState) (sheet : Sheet)
    (h : (sheet.rows.headD []).takeWhile (fun c => truthy c.value) = []) :
    processSheet st sheet = ([], .error (.xlsxParseError (noPkMsg sheet.title))) := by
  have hcf : collectFields (sheet.rows.headD []) = ([], .ok []) := by
    cases hh : sheet.rows.headD [] with
    | nil => rfl
    | cons c rest =>
      rw [hh] at h
      cases hc : truthy c.value with
      | true => simp [List.takeWhile_cons, hc] at h
      | false => simp [collectFields, hc]
  simp only [processSheet]
  rw [hcf]
  simp [buildTable, buildColumns]

/-! ### Claim theorems: schema building -/

/-- C1: for every worksheet exactly one header field may carry a truthy
`pk` flag: with zero pk-flagged fields table construction fails with the
no-primary-key `ParseError`; as soon as a second pk-flagged field occurs
(whatever follows it), construction fails with the multiple-primary-keys
`ParseError`. -/
theorem pk_validation_errors :
    (∀ (tn : String) (fs : List (CellValue × FieldMetadata)),
       (∀ f ∈ fs, f.2.pk = false) →
       buildTable tn fs = .error (.xlsxParseError (noPkMsg tn)))
  ∧ (∀ (tn : String) (pre : List (CellValue × FieldMetadata)) (f1 : CellValue × FieldMetadata)
       (mid : List (CellValue × FieldMetadata)) (f2 : CellValue × FieldMetadata)
       (post : List (CellValue × FieldMetadata)),
       f1.2.pk = true → f2.2.pk = true →
       buildTable tn (pre ++ f1 :: mid ++ f2 :: post) =
         .error (.xlsxParseError (multiPkMsg tn))) := by
  constructor
  · intro tn fs h
    have h1 := buildColumns_none_app tn fs [] h
    rw [List.append_nil] at h1
    rw [buildColumns_nil] at h1
    simp only [] at h1
    simp [buildTable, h1]
  · intro tn pre f1 mid f2 post h1 h2
    have hcount : 2 ≤ ((pre ++ f1 :: mid ++ f2 :: post).filter (fun f => f.2.pk)).length := by
      simp [List.filter_append, List.filter_cons, h1, h2]
      omega
    have hb := buildColumns_two_pks tn (pre ++ f1 :: mid ++ f2 :: post) hcount
    simp only [buildTable]
    rw [hb]

/-- C1 witness: a single non-pk field triggers the no-primary-key error. -/
theorem pk_validation_errors_wit :
    buildTable "T" [(.str "A", accountNameMeta)] = .error (.xlsxParseError (noPkMsg "T")) :=
  pk_validation_errors.1 "T" [(.str "A", accountNameMeta)] (by decide)

/-- C2 counterexample: a worksheet whose second field repeats the primary
key's name passes pk validation, yet that non-pk field is emitted unquoted
(`\tId INTEGER`), not double-quoted as the claim prescribes. -/
theorem ddl_quoting_cex :
    buildTable "T" dupIdFields =
      .ok ("CREATE TABLE \"T\" (\n\tId INTEGER,\n\tId INTEGER,\n  PRIMARY KEY (Id)\n);\n", [])
  ∧ dupIdFields.get? 1 =
      some (.str "Id", { type := "INTEGER", not_null := false, pk := false })
  ∧ ("CREATE TABLE \"T\" (\n\tId INTEGER,\n\tId INTEGER,\n  PRIMARY KEY (Id)\n);\n" : String) ≠
      "CREATE TABLE \"T\" (\n\tId INTEGER,\n\t\"Id\" INTEGER,\n  PRIMARY KEY (Id)\n);\n" :=
  ⟨rfl, rfl, by decide⟩

/-- The DDL of a header whose unique pk field shares no name (in the
Python-equality sense) with any later field: quoted lines for the other
fields, the unquoted line for the pk, the trailing PRIMARY KEY line. -/
lemma buildTable_shape (tn : String) (fpre : List (CellValue × FieldMetadata))
    (pname : CellValue) (pmd : FieldMetadata) (fpost : List (CellValue × FieldMetadata))
    (hpk : pmd.pk = true)
    (hpre : ∀ f ∈ fpre, f.2.pk = false) (hpost : ∀ f ∈ fpost, f.2.pk = false)
    (hname : ∀ f ∈ fpost, pyEq pname f.1 = false) :
    buildTable tn (fpre ++ (pname, pmd) :: fpost) =
      .ok ("CREATE TABLE \"" ++ tn ++ "\" (\n" ++ quotedLines fpre ++
             colLine true pname pmd ++ quotedLines fpost ++
             "  PRIMARY KEY (" ++ pyStr pname ++ ")\n" ++ ");\n",
           fpre.map Prod.fst ++ fpost.map Prod.fst) := by
  have h3 := buildColumns_some_app tn pname fpost [] hpost hname
  rw [List.append_nil, buildColumns_nil] at h3
  simp only [] at h3
  have h2 := buildColumns_cons_pk tn pname pmd fpost hpk
  rw [h3] at h2
  simp only [] at h2
  have h1 := buildColumns_none_app tn fpre ((pname, pmd) :: fpost) hpre
  rw [h2] at h1
  simp only [] at h1
  simp [buildTable, h1, strAppAssoc, strAppEmpty]

/-- C2 (amended): for every worksheet passing pk validation in which no
field after the primary-key field has a name Python-equal to the pk's
name, the DDL is `CREATE TABLE "<name>" (` followed by one column line per
field in header order — double-quoted names for the non-pk fields, the
unquoted name for the pk field, each line with the declared type, ` NOT
NULL` exactly when the metadata says so — and a trailing unquoted
`PRIMARY KEY` line; the Account scenario yields exactly the §8 text. -/
theorem ddl_shape_amended :
    (∀ (tn : String) (fpre : List (CellValue × FieldMetadata)) (pname : CellValue)
       (pmd : FieldMetadata) (fpost : List (CellValue × FieldMetadata)),
       pmd.pk = true →
       (∀ f ∈ fpre, f.2.pk = false) → (∀ f ∈ fpost, f.2.pk = false) →
       (∀ f ∈ fpost, pyEq pname f.1 = false) →
       buildTable tn (fpre ++ (pname, pmd) :: fpost) =
         .ok ("CREATE TABLE \"" ++ tn ++ "\" (\n" ++ quotedLines fpre ++
                colLine true pname pmd ++ quotedLines fpost ++
                "  PRIMARY KEY (" ++ pyStr pname ++ ")\n" ++ ");\n",
              fpre.map Prod.fst ++ fpost.map Prod.fst))
  ∧ xlsxToSql accountInput = ([], .ok { sql := accountSql, mapping := [] }) :=
  ⟨buildTable_shape, rfl⟩

/-- C2 witness: the amended DDL-shape theorem applied to the Account
header. -/
theorem ddl_shape_amended_wit :
    buildTable "Account" accountFields =
      .ok ("CREATE TABLE \"" ++ "Account" ++ "\" (\n" ++ quotedLines [] ++
             colLine true (.str "Id") accountIdMeta ++
             quotedLines [(.str "Name", accountNameMeta)] ++
             "  PRIMARY KEY (" ++ pyStr (.str "Id") ++ ")\n" ++ ");\n",
           ([] : List (CellValue × FieldMetadata)).map Prod.fst ++
             [(.str "Name", accountNameMeta)].map Prod.fst) :=
  ddl_shape_amended.1 "Account" [] (.str "Id") accountIdMeta
    [(.str "Name", accountNameMeta)] rfl (by decide) (by decide) (by decide)

/-! ### Claim theorems: record serialization -/

/-- C3: per-field coercion is keyed on the declared type string: exactly
`"INTEGER"` goes through `int()` and renders bare (propagating the
coercion error on non-integer-parseable values), every other type goes
through `str()` and renders single-quoted verbatim; tuples are
comma-joined without spaces; `"42"` under INTEGER gives the literal `42`,
a boolean `true` under a non-INTEGER type gives `'True'`. -/
theorem coercion_policy :
    (∀ (v : CellValue) (n : Int), pyInt (noneToEmpty v) = .ok n →
       coerceValue "INTEGER" v = .ok (.vInt n) ∧ renderOne (.vInt n) = toString n)
  ∧ (∀ (v : CellValue) (e : Err), pyInt (noneToEmpty v) = .error e →
       coerceValue "INTEGER" v = .error e)
  ∧ (∀ (ty : String) (v : CellValue), ty ≠ "INTEGER" →
       coerceValue ty v = .ok (.vStr (pyStr (noneToEmpty v))) ∧
       renderOne (.vStr (pyStr (noneToEmpty v))) =
         "\x27" ++ pyStr (noneToEmpty v) ++ "\x27")
  ∧ (∀ (u v : SqlVal) (vs : List SqlVal),
       renderVals (u :: v :: vs) = renderOne u ++ "," ++ renderVals (v :: vs))
  ∧ (coerceValue "INTEGER" (.str "42") = .ok (.vInt 42) ∧ renderOne (.vInt 42) = "42")
  ∧ (coerceValue "VARCHAR(255)" (.bool true) = .ok (.vStr "True") ∧
     renderOne (.vStr "True") = "\x27True\x27") := by
  refine ⟨?_, ?_, ?_, ?_, ⟨by rfl, by rfl⟩, ⟨by rfl, by rfl⟩⟩
  · intro v n h
    exact ⟨by simp [coerceValue, h], rfl⟩
  · intro v e h
    simp [coerceValue, h]
  · intro ty v hty
    exact ⟨by simp [coerceValue, hty], rfl⟩
  · intro u v vs
    rfl

/-- C3 witness: the non-INTEGER branch applied to a boolean cell. -/
theorem coercion_policy_wit :
    coerceValue "VARCHAR(255)" (.bool true) =
      .ok (.vStr (pyStr (noneToEmpty (.bool true)))) ∧
    renderOne (.vStr (pyStr (noneToEmpty (.bool true)))) =
      "\x27" ++ pyStr (noneToEmpty (.bool true)) ++ "\x27" :=
  coercion_policy.2.2.1 "VARCHAR(255)" (.bool true) (by decide)

/-- C9: `int()` on a float always succeeds and truncates toward zero
(3.7 becomes the bare literal 3, -3.7 becomes -3); the INTEGER coercion
can only fail on values that are, after the None-to-empty-string step,
strings that `int()` cannot parse. -/
theorem integer_truncation :
    (∀ (n : Int) (d : Nat), pyInt (.float n d) = .ok (Int.tdiv n (d : Int)))
  ∧ pyInt (.float 37 10) = .ok 3
  ∧ pyInt (.float (-37) 10) = .ok (-3)
  ∧ coerceValue "INTEGER" (.float 37 10) = .ok (.vInt 3)
  ∧ rowsSql "T" [(.str "N", { type := "INTEGER", not_null := false, pk := true })]
      [[⟨.float 37 10, Option.none⟩]] = .ok "INSERT INTO \"T\" VALUES(3);\n"
  ∧ (∀ v : CellValue,
       (∃ sv, coerceValue "INTEGER" v = .ok sv) ∨
       (∃ s, noneToEmpty v = .str s ∧ parsePyIntStr s = Option.none)) := by
  refine ⟨fun n d => rfl, by rfl, by rfl, by rfl, by rfl, ?_⟩
  intro v
  cases v with
  | none => exact Or.inr ⟨"", rfl, rfl⟩
  | str s =>
    cases hp : parsePyIntStr s with
    | none => exact Or.inr ⟨s, rfl, hp⟩
    | some n => exact Or.inl ⟨.vInt n, by simp [coerceValue, noneToEmpty, pyInt, hp]⟩
  | int n => exact Or.inl ⟨.vInt n, by simp [coerceValue, noneToEmpty, pyInt]⟩
  | float n d => exact Or.inl ⟨.vInt (Int.tdiv n (d : Int)), by simp [coerceValue, noneToEmpty, pyInt]⟩
  | bool b => exact Or.inl ⟨.vInt (if b then 1 else 0), by cases b <;> simp [coerceValue, noneToEmpty, pyInt]⟩

/-- C10: a worksheet whose header scan stops immediately (first header
cell falsy, or no header row) yields an empty field list and fails with
the no-primary-key `ParseError`; the collected field names are always the
values of the maximal truthy prefix of the header row; a successfully
processed worksheet therefore has a truthy first header cell. -/
theorem header_scan :
    (∀ (st : RunState) (sheet : Sheet),
       (sheet.rows.headD []).takeWhile (fun c => truthy c.value) = [] →
       processSheet st sheet = ([], .error (.xlsxParseError (noPkMsg sheet.title))))
  ∧ (∀ (header : List Cell) (ws : List String) (fields : List (CellValue × FieldMetadata)),
       collectFields header = (ws, .ok fields) →
       fields.map Prod.fst = (header.takeWhile (fun c => truthy c.value)).map Cell.value)
  ∧ (∀ (st : RunState) (sheet : Sheet) (ws : List String) (st' : RunState),
       processSheet st sheet = (ws, .ok st') →
       (sheet.rows.headD []).takeWhile (fun c => truthy c.value) ≠ []) := by
  refine ⟨processSheet_noPk_of_header_falsy, collectFields_names, ?_⟩
  intro st sheet ws st' h hnil
  rw [processSheet_noPk_of_header_falsy st sheet hnil] at h
  simp at h

/-- C10 witness: a worksheet whose first header cell is the empty string
fails with the no-primary-key error. -/
theorem header_scan_wit :
    processSheet emptyRunState falsyHeaderSheet =
      ([], .error (.xlsxParseError (noPkMsg "Bad"))) :=
  header_scan.1 emptyRunState falsyHeaderSheet (by decide)

/-! ### Claim theorems: row retention -/

/-- C4 counterexample: a data row whose only cell holds the integer 0 — a
value that is neither absent nor empty — is nevertheless skipped (the run
emits no INSERT), because the source tests Python truthiness, not
emptiness. -/
theorem empty_row_skip_cex :
    xlsxToSql zeroRowInput = ([], .ok { sql := zeroRowSql, mapping := [] })
  ∧ subIn "INSERT".data zeroRowSql.data = false
  ∧ zeroRowSheet.rows.get? 1 = some [⟨.int 0, Option.none⟩]
  ∧ CellValue.int 0 ≠ .none
  ∧ CellValue.int 0 ≠ .str "" :=
  ⟨rfl, by decide, rfl, by decide, by decide⟩

/-- C4 (amended): a data row is skipped exactly when every cell of the
sheet row (all columns the row carries, not only field columns) is falsy —
absent, empty, zero, or false; a row with at least one truthy cell yields
exactly one INSERT, in which absent/empty cells of non-INTEGER fields are
rendered as empty-string literals. -/
theorem empty_row_skip_amended :
    (∀ (tn : String) (fields : List (CellValue × FieldMetadata)) (row : List Cell)
       (rest : List (List Cell)),
       (∀ c ∈ row, truthy c.value = false) →
       rowsSql tn fields (row :: rest) = rowsSql tn fields rest)
  ∧ (∀ (tn : String) (fields : List (CellValue × FieldMetadata)) (row : List Cell)
       (rest : List (List Cell)) (c : Cell) (vals : List SqlVal) (restText : String),
       c ∈ row → truthy c.value = true →
       rowValues row fields 0 = .ok vals →
       rowsSql tn fields rest = .ok restText →
       rowsSql tn fields (row :: rest) = .ok (insertLine tn vals ++ restText))
  ∧ (∀ ty : String, ty ≠ "INTEGER" →
       coerceValue ty CellValue.none = .ok (.vStr "") ∧
       coerceValue ty (.str "") = .ok (.vStr "") ∧
       renderOne (.vStr "") = "\x27\x27")
  ∧ rowsSql "T" [(.str "A", accountNameMeta), (.str "B", accountNameMeta)]
      [[⟨.str "x", Option.none⟩]] =
      .ok "INSERT INTO \"T\" VALUES(\x27x\x27,\x27\x27);\n" := by
  refine ⟨?_, ?_, ?_, by rfl⟩
  · intro tn fields row rest h
    have ha : row.any (fun c => truthy c.value) = false := by
      rw [List.any_eq_false]
      intro c hc
      simp [h c hc]
    simp [rowsSql, ha]
  · intro tn fields row rest c vals restText hc htr hvals hrest
    have ha : row.any (fun c => truthy c.value) = true :=
      List.any_eq_true.mpr ⟨c, hc, by simp [htr]⟩
    simp [rowsSql, ha, hvals, hrest, Except.map]
  · intro ty hty
    exact ⟨by simp [coerceValue, hty, noneToEmpty, pyStr], by simp [coerceValue, hty, noneToEmpty, pyStr], rfl⟩

/-- C4 witness: the all-falsy-row conjunct applied to the zero-cell row. -/
theorem empty_row_skip_amended_wit :
    rowsSql "T" [(.str "Id", accountIdMeta)] [[⟨.int 0, Option.none⟩]] =
      rowsSql "T" [(.str "Id", accountIdMeta)] [] :=
  empty_row_skip_amended.1 "T" [(.str "Id", accountIdMeta)] [⟨.int 0, Option.none⟩] []
    (by decide)

/-! ### Dictionary lemmas -/

lemma lookupD_dictSet_same {α : Type} (m : List (String × α)) (k : String) (v : α) :
    lookupD (dictSet m k v) k = some v := by
  induction m with
  | nil => simp [dictSet, lookupD]
  | cons kv rest ih =>
    obtain ⟨k', v'⟩ := kv
    by_cases h : k' = k <;> simp [dictSet, lookupD, h, ih]

lemma lookupD_dictSet_ne {α : Type} (m : List (String × α)) (k k2 : String) (v : α)
    (h : k ≠ k2) : lookupD (dictSet m k v) k2 = lookupD m k2 := by
  induction m with
  | nil => simp [dictSet, lookupD, h]
  | cons kv rest ih =>
    obtain ⟨k', v'⟩ := kv
    by_cases h2 : k' = k
    · subst h2
      simp [dictSet, lookupD, h]
    · simp [dictSet, lookupD, h2, ih]

lemma dictSet_dictSet_same {α : Type} (m : List (String × α)) (k : String) (a b : α) :
    dictSet (dictSet m k a) k b = dictSet m k b := by
  induction m with
  | nil => simp [dictSet]
  | cons kv rest ih =>
    obtain ⟨k', v'⟩ := kv
    by_cases h : k' = k <;> simp [dictSet, h, ih]

lemma lookupD_map_const {α β : Type} (m : List (String × α)) (k : String) (c : β) :
    lookupD (m.map (fun kv => (kv.1, c))) k = (lookupD m k).map (fun _ => c) := by
  induction m with
  | nil => simp [lookupD]
  | cons kv rest ih =>
    obtain ⟨k', v'⟩ := kv
    by_cases h : k' = k <;> simp [lookupD, h, ih]

lemma ikey_inj {a b : String} (h : ikey a = ikey b) : a = b := by
  have h2 : (ikey a).data = (ikey b).data := congrArg String.data h
  unfold ikey at h2
  cases a with | mk da =>
  cases b with | mk db =>
  simp only [String.data_append] at h2
  have h3 := List.append_cancel_left h2
  simpa using congrArg String.mk h3

/-! ### Lemmas about reconciliation and the worksheet loop -/

lemma reconcile_carried (st : RunState) (t : String) (mfs : List CellValue)
    (kvs : List (String × JVal))
    (hl : lookupD st.mappingOriginal (ikey t) = some (.obj kvs)) :
    reconcile st t mfs =
      ([], .ok { st with
        preserved := dictSet st.preserved (ikey t) true,
        mappingNew := dictSet st.mappingNew (ikey t)
          (.obj (dictSet kvs "fields" (JVal.list (mfs.map cellToJVal)))) }) := by
  simp [reconcile, hl, setField]

lemma reconcile_skip (st : RunState) (t : String) (mfs : List CellValue)
    (hl : lookupD st.mappingOriginal (ikey t) = Option.none)
    (hin : pyIn t st.twmd = .ok true) :
    reconcile st t mfs = ([], .ok st) := by
  simp [reconcile, hl, hin]

lemma reconcile_default (st : RunState) (t : String) (mfs : List CellValue)
    (hl : lookupD st.mappingOriginal (ikey t) = Option.none)
    (hin : pyIn t st.twmd = .ok false) :
    reconcile st t mfs =
      ([defaultDataWarning t], .ok { st with
        mappingNew := dictSet st.mappingNew (ikey t)
          (.obj [("table", .str t), ("fields", JVal.list (mfs.map cellToJVal))]) }) := by
  simp [reconcile, hl, hin]

lemma reconcile_spec (st : RunState) (t : String) (mfs : List CellValue)
    (ws : List String) (st' : RunState)
    (h : reconcile st t mfs = (ws, .ok st')) :
    st'.mappingOriginal = st.mappingOriginal ∧ st'.twmd = st.twmd ∧ st'.sql = st.sql ∧
    ((st'.mappingNew = st.mappingNew ∧ st'.preserved = st.preserved) ∨
     (∃ fj,
       (∃ kvs, lookupD st.mappingOriginal (ikey t) = some (.obj kvs) ∧
          st'.mappingNew = dictSet st.mappingNew (ikey t) (.obj (dictSet kvs "fields" fj)) ∧
          st'.preserved = dictSet st.preserved (ikey t) true) ∨
       (lookupD st.mappingOriginal (ikey t) = Option.none ∧
          pyIn t st.twmd = .ok false ∧
          st'.mappingNew = dictSet st.mappingNew (ikey t)
            (.obj [("table", .str t), ("fields", fj)]) ∧
          st'.preserved = st.preserved))) := by
  cases hl : lookupD st.mappingOriginal (ikey t) with
  | some entry =>
    cases entry with
    | obj kvs =>
      rw [reconcile_carried st t mfs kvs hl] at h
      have h2 := congrArg Prod.snd h
      have h4 := Except.ok.inj h2
      refine ⟨by rw [← h4], by rw [← h4], by rw [← h4], Or.inr ?_⟩
      exact ⟨JVal.list (mfs.map cellToJVal), Or.inl ⟨kvs, rfl, by rw [← h4], by rw [← h4]⟩⟩
    | null => simp [reconcile, hl, setField] at h
    | str s => simp [reconcile, hl, setField] at h
    | int n => simp [reconcile, hl, setField] at h
    | float n d => simp [reconcile, hl, setField] at h
    | bool b => simp [reconcile, hl, setField] at h
    | list items => simp [reconcile, hl, setField] at h
  | none =>
    cases hin : pyIn t st.twmd with
    | error e => simp [reconcile, hl, hin] at h
    | ok b =>
      cases b with
      | true =>
        rw [reconcile_skip st t mfs hl hin] at h
        have h2 : st' = st := by
          have := congrArg Prod.snd h
          simpa using this.symm
        subst h2
        exact ⟨rfl, rfl, rfl, Or.inl ⟨rfl, rfl⟩⟩
      | false =>
        rw [reconcile_default st t mfs hl hin] at h
        have h2 := congrArg Prod.snd h
        have h4 := Except.ok.inj h2
        refine ⟨by rw [← h4], by rw [← h4], by rw [← h4], Or.inr ?_⟩
        exact ⟨JVal.list (mfs.map cellToJVal),
          Or.inr ⟨rfl, rfl, by rw [← h4], by rw [← h4]⟩⟩

lemma processSheet_build (st : RunState) (sheet : Sheet) (wsf : List String)
    (fields : List (CellValue × FieldMetadata)) (ddl : String) (mfs : List CellValue)
    (ins : String) (ws2 : List String) (st2 : RunState)
    (h1 : collectFields (sheet.rows.headD []) = (wsf, .ok fields))
    (h2 : buildTable sheet.title fields = .ok (ddl, mfs))
    (h3 : rowsSql sheet.title fields (sheet.rows.drop 1) = .ok ins)
    (h4 : reconcile st sheet.title mfs = (ws2, .ok st2)) :
    processSheet st sheet = (wsf ++ ws2, .ok { st2 with sql := st.sql ++ ddl ++ ins }) := by
  simp only [processSheet, h1, h2, h3, h4]

lemma processSheet_decomp (st : RunState) (sheet : Sheet) (ws : List String) (st' : RunState)
    (h : processSheet st sheet = (ws, .ok st')) :
    ∃ wsf fields ddl mfs ins ws2 st2,
      collectFields (sheet.rows.headD []) = (wsf, .ok fields) ∧
      buildTable sheet.title fields = .ok (ddl, mfs) ∧
      rowsSql sheet.title fields (sheet.rows.drop 1) = .ok ins ∧
      reconcile st sheet.title mfs = (ws2, .ok st2) ∧
      ws = wsf ++ ws2 ∧ st' = { st2 with sql := st.sql ++ ddl ++ ins } := by
  cases hcf : collectFields (sheet.rows.headD []) with
  | mk wsf r1 =>
  cases r1 with
  | error e => simp only [processSheet, hcf] at h; simp at h
  | ok fields =>
  cases hbt : buildTable sheet.title fields with
  | error e => simp only [processSheet, hcf, hbt] at h; simp at h
  | ok dm =>
  obtain ⟨ddl, mfs⟩ := dm
  cases hrs : rowsSql sheet.title fields (sheet.rows.drop 1) with
  | error e => simp only [processSheet, hcf, hbt, hrs] at h; simp at h
  | ok ins =>
  cases hrc : reconcile st sheet.title mfs with
  | mk ws2 r2 =>
  cases r2 with
  | error e => simp only [processSheet, hcf, hbt, hrs, hrc] at h; simp at h
  | ok st2 =>
    simp only [processSheet, hcf, hbt, hrs, hrc] at h
    have hws := congrArg Prod.fst h
    have hst := Except.ok.inj (congrArg Prod.snd h)
    exact ⟨wsf, fields, ddl, mfs, ins, ws2, st2, rfl, hbt, hrs, hrc, hws.symm, hst.symm⟩

lemma processSheet_spec (st : RunState) (sheet : Sheet) (ws : List String) (st' : RunState)
    (h : processSheet st sheet = (ws, .ok st')) :
    st'.mappingOriginal = st.mappingOriginal ∧ st'.twmd = st.twmd ∧
    ((st'.mappingNew = st.mappingNew ∧ st'.preserved = st.preserved) ∨
     (∃ fj,
       (∃ kvs, lookupD st.mappingOriginal (ikey sheet.title) = some (.obj kvs) ∧
          st'.mappingNew = dictSet st.mappingNew (ikey sheet.title)
            (.obj (dictSet kvs "fields" fj)) ∧
          st'.preserved = dictSet st.preserved (ikey sheet.title) true) ∨
       (lookupD st.mappingOriginal (ikey sheet.title) = Option.none ∧
          pyIn sheet.title st.twmd = .ok false ∧
          st'.mappingNew = dictSet st.mappingNew (ikey sheet.title)
            (.obj [("table", .str sheet.title), ("fields", fj)]) ∧
          st'.preserved = st.preserved))) := by
  obtain ⟨wsf, fields, ddl, mfs, ins, ws2, st2, h1, h2, h3, h4, hws, hst⟩ :=
    processSheet_decomp st sheet ws st' h
  obtain ⟨ho, ht, hs, hcase⟩ := reconcile_spec st sheet.title mfs ws2 st2 h4
  subst hst
  exact ⟨by simpa using ho, by simpa using ht, by simpa using hcase⟩

lemma processSheets_cons_ok (st : RunState) (sheet : Sheet) (rest : List Sheet)
    (ws : List String) (st' : RunState)
    (h : processSheets st (sheet :: rest) = (ws, .ok st')) :
    ∃ wa stA wb, processSheet st sheet = (wa, .ok stA) ∧
      processSheets stA rest = (wb, .ok st') ∧ ws = wa ++ wb := by
  cases hA : processSheet st sheet with
  | mk wa rA =>
  cases rA with
  | error e => simp only [processSheets, hA] at h; simp at h
  | ok stA =>
  cases hR : processSheets stA rest with
  | mk wb rB =>
  cases rB with
  | error e => simp only [processSheets, hA, hR] at h; simp at h
  | ok stF =>
    simp only [processSheets, hA, hR] at h
    have hws := congrArg Prod.fst h
    have hst := Except.ok.inj (congrArg Prod.snd h)
    exact ⟨wa, stA, wb, rfl, by rw [hR, hst], hws.symm⟩

lemma processSheets_cons_build (st : RunState) (sheet : Sheet) (rest : List Sheet)
    (wa : List String) (stA : RunState) (wb : List String) (r : Except Err RunState)
    (h1 : processSheet st sheet = (wa, .ok stA))
    (h2 : processSheets stA rest = (wb, r)) :
    processSheets st (sheet :: rest) = (wa ++ wb, r) := by
  simp only [processSheets, h1, h2]

lemma processSheets_orig_twmd :
    ∀ (sheets : List Sheet) (st : RunState) (ws : List String) (st' : RunState),
      processSheets st sheets = (ws, .ok st') →
      st'.mappingOriginal = st.mappingOriginal ∧ st'.twmd = st.twmd := by
  intro sheets
  induction sheets with
  | nil =>
    intro st ws st' h
    have hst := Except.ok.inj (congrArg Prod.snd h)
    exact ⟨by rw [← hst], by rw [← hst]⟩
  | cons sheet rest ih =>
    intro st ws st' h
    obtain ⟨wa, stA, wb, hA, hR, -⟩ := processSheets_cons_ok st sheet rest ws st' h
    obtain ⟨h1, h2, -⟩ := processSheet_spec st sheet wa stA hA
    obtain ⟨h3, h4⟩ := ih stA wb st' hR
    exact ⟨h3.trans h1, h4.trans h2⟩

lemma processSheets_not_touched (k : String) :
    ∀ (sheets : List Sheet) (st : RunState) (ws : List String) (st' : RunState),
      (∀ s ∈ sheets, ikey s.title ≠ k) →
      processSheets st sheets = (ws, .ok st') →
      lookupD st'.mappingNew k = lookupD st.mappingNew k ∧
      lookupD st'.preserved k = lookupD st.preserved k := by
  intro sheets
  induction sheets with
  | nil =>
    intro st ws st' _ h
    have hst := Except.ok.inj (congrArg Prod.snd h)
    exact ⟨by rw [← hst], by rw [← hst]⟩
  | cons sheet rest ih =>
    intro st ws st' hks h
    obtain ⟨wa, stA, wb, hA, hR, -⟩ := processSheets_cons_ok st sheet rest ws st' h
    have hkey : ikey sheet.title ≠ k := hks sheet (List.mem_cons_self _ _)
    have hkr : ∀ s ∈ rest, ikey s.title ≠ k := fun s hs => hks s (List.mem_cons_of_mem _ hs)
    obtain ⟨hmA, hpA⟩ : lookupD stA.mappingNew k = lookupD st.mappingNew k ∧
        lookupD stA.preserved k = lookupD st.preserved k := by
      obtain ⟨-, -, hcase⟩ := processSheet_spec st sheet wa stA hA
      rcases hcase with ⟨hm, hp⟩ | ⟨fj, ⟨kvs, -, hm, hp⟩ | ⟨-, -, hm, hp⟩⟩
      · exact ⟨by rw [hm], by rw [hp]⟩
      · exact ⟨by rw [hm, lookupD_dictSet_ne _ _ _ _ hkey],
          by rw [hp, lookupD_dictSet_ne _ _ _ _ hkey]⟩
      · exact ⟨by rw [hm, lookupD_dictSet_ne _ _ _ _ hkey], by rw [hp]⟩
    obtain ⟨hmR, hpR⟩ := ih stA wb st' hkr hR
    exact ⟨hmR.trans hmA, hpR.trans hpA⟩

lemma processSheets_lookup (k : String) :
    ∀ (sheets : List Sheet) (st : RunState) (ws : List String) (st' : RunState),
      processSheets st sheets = (ws, .ok st') →
      lookupD st'.mappingNew k = lookupD st.mappingNew k ∨
      ∃ t fj, k = ikey t ∧
        ((∃ kvs, lookupD st.mappingOriginal k = some (.obj kvs) ∧
            lookupD st'.mappingNew k = some (.obj (dictSet kvs "fields" fj))) ∨
         (lookupD st.mappingOriginal k = Option.none ∧ pyIn t st.twmd = .ok false ∧
            lookupD st'.mappingNew k = some (.obj [("table", .str t), ("fields", fj)]))) := by
  intro sheets
  induction sheets with
  | nil =>
    intro st ws st' h
    have hst := Except.ok.inj (congrArg Prod.snd h)
    exact Or.inl (by rw [← hst])
  | cons sheet rest ih =>
    intro st ws st' h
    obtain ⟨wa, stA, wb, hA, hR, -⟩ := processSheets_cons_ok st sheet rest ws st' h
    obtain ⟨ho, ht, hcase⟩ := processSheet_spec st sheet wa stA hA
    rcases ih stA wb st' hR with hL | ⟨t, fj, hkt, hsub⟩
    · rcases hcase with ⟨hm, -⟩ | ⟨fj, ⟨kvs, hlk, hm, -⟩ | ⟨hlk, hpy, hm, -⟩⟩
      · exact Or.inl (by rw [hL, hm])
      · by_cases hk : ikey sheet.title = k
        · refine Or.inr ⟨sheet.title, fj, hk.symm, Or.inl ⟨kvs, by rw [← hk]; exact hlk, ?_⟩⟩
          rw [hL, hm, ← hk, lookupD_dictSet_same]
        · exact Or.inl (by rw [hL, hm, lookupD_dictSet_ne _ _ _ _ hk])
      · by_cases hk : ikey sheet.title = k
        · refine Or.inr ⟨sheet.title, fj, hk.symm, Or.inr ⟨by rw [← hk]; exact hlk, hpy, ?_⟩⟩
          rw [hL, hm, ← hk, lookupD_dictSet_same]
        · exact Or.inl (by rw [hL, hm, lookupD_dictSet_ne _ _ _ _ hk])
    · rw [ho] at hsub
      rw [ht] at hsub
      exact Or.inr ⟨t, fj, hkt, hsub⟩

lemma processSheets_append_ok :
    ∀ (xs : List Sheet) (ys : List Sheet) (st : RunState) (ws : List String) (st' : RunState),
      processSheets st (xs ++ ys) = (ws, .ok st') →
      ∃ w1 stM w2, processSheets st xs = (w1, .ok stM) ∧
        processSheets stM ys = (w2, .ok st') ∧ ws = w1 ++ w2 := by
  intro xs
  induction xs with
  | nil =>
    intro ys st ws st' h
    exact ⟨[], st, ws, rfl, h, (List.nil_append ws).symm⟩
  | cons sheet rest ih =>
    intro ys st ws st' h
    rw [List.cons_append] at h
    obtain ⟨wa, stA, wb, hA, hRY, hws⟩ := processSheets_cons_ok st sheet (rest ++ ys) ws st' h
    obtain ⟨w1, stM, w2, hx, hy, hww⟩ := ih ys stA wb st' hRY
    refine ⟨wa ++ w1, stM, w2, processSheets_cons_build st sheet rest wa stA w1 _ hA hx, hy, ?_⟩
    rw [hws, hww, List.append_assoc]

lemma orphanWarnings_cons (k' : String) (v' : JVal) (rest : List (String × JVal))
    (preserved : List (String × Bool)) :
    orphanWarnings ((k', v') :: rest) preserved =
      match lookupD preserved k' with
      | some true => orphanWarnings rest preserved
      | _ => orphanWarning k' v' :: orphanWarnings rest preserved := rfl

lemma orphanWarnings_mem :
    ∀ (morig : List (String × JVal)) (preserved : List (String × Bool)) (k : String) (v : JVal),
      lookupD morig k = some v → lookupD preserved k = some false →
      orphanWarning k v ∈ orphanWarnings morig preserved := by
  intro morig
  induction morig with
  | nil => intro preserved k v h _; simp [lookupD] at h
  | cons kv rest ih =>
    intro preserved k v h hp
    obtain ⟨k', v'⟩ := kv
    by_cases hk : k' = k
    · subst hk
      have hv : v' = v := by simpa [lookupD] using h
      subst hv
      rw [orphanWarnings_cons, hp]
      exact List.mem_cons_self _ _
    · have hmem := ih preserved k v (by simpa [lookupD, hk] using h) hp
      rw [orphanWarnings_cons]
      cases hl : lookupD preserved k' with
      | none => exact List.mem_cons_of_mem _ hmem
      | some b =>
        cases b with
        | true => exact hmem
        | false => exact List.mem_cons_of_mem _ hmem

lemma dictSet_pair_fields (x g fj : JVal) :
    dictSet [("table", x), ("fields", g)] "fields" fj = [("table", x), ("fields", fj)] := by
  simp [dictSet]

/-- A worksheet whose block key is found in the original document:
packaged effect of `processSheet`. -/
lemma processSheet_carried (st : RunState) (sheet : Sheet) (wsf : List String)
    (fields : List (CellValue × FieldMetadata)) (ddl : String) (mfs : List CellValue)
    (ins : String) (kvs : List (String × JVal))
    (h1 : collectFields (sheet.rows.headD []) = (wsf, .ok fields))
    (h2 : buildTable sheet.title fields = .ok (ddl, mfs))
    (h3 : rowsSql sheet.title fields (sheet.rows.drop 1) = .ok ins)
    (hl : lookupD st.mappingOriginal (ikey sheet.title) = some (.obj kvs)) :
    ∃ stA, processSheet st sheet = (wsf ++ [], .ok stA) ∧
      stA.mappingOriginal = st.mappingOriginal ∧ stA.twmd = st.twmd ∧
      stA.mappingNew = dictSet st.mappingNew (ikey sheet.title)
        (.obj (dictSet kvs "fields" (JVal.list (mfs.map cellToJVal)))) :=
  ⟨_, processSheet_build st sheet wsf fields ddl mfs ins [] _ h1 h2 h3
      (reconcile_carried st sheet.title mfs kvs hl), rfl, rfl, rfl⟩

/-- A worksheet declared mapping-less: packaged effect of `processSheet`. -/
lemma processSheet_skipped (st : RunState) (sheet : Sheet) (wsf : List String)
    (fields : List (CellValue × FieldMetadata)) (ddl : String) (mfs : List CellValue)
    (ins : String)
    (h1 : collectFields (sheet.rows.headD []) = (wsf, .ok fields))
    (h2 : buildTable sheet.title fields = .ok (ddl, mfs))
    (h3 : rowsSql sheet.title fields (sheet.rows.drop 1) = .ok ins)
    (hl : lookupD st.mappingOriginal (ikey sheet.title) = Option.none)
    (hin : pyIn sheet.title st.twmd = .ok true) :
    ∃ stA, processSheet st sheet = (wsf ++ [], .ok stA) ∧
      stA.mappingOriginal = st.mappingOriginal ∧ stA.twmd = st.twmd ∧
      stA.mappingNew = st.mappingNew :=
  ⟨_, processSheet_build st sheet wsf fields ddl mfs ins [] _ h1 h2 h3
      (reconcile_skip st sheet.title mfs hl hin), rfl, rfl, rfl⟩

/-- A worksheet with no entry and not declared mapping-less: packaged
effect of `processSheet`. -/
lemma processSheet_defaulted (st : RunState) (sheet : Sheet) (wsf : List String)
    (fields : List (CellValue × FieldMetadata)) (ddl : String) (mfs : List CellValue)
    (ins : String)
    (h1 : collectFields (sheet.rows.headD []) = (wsf, .ok fields))
    (h2 : buildTable sheet.title fields = .ok (ddl, mfs))
    (h3 : rowsSql sheet.title fields (sheet.rows.drop 1) = .ok ins)
    (hl : lookupD st.mappingOriginal (ikey sheet.title) = Option.none)
    (hin : pyIn sheet.title st.twmd = .ok false) :
    ∃ stA, processSheet st sheet = (wsf ++ [defaultDataWarning sheet.title], .ok stA) ∧
      stA.mappingOriginal = st.mappingOriginal ∧ stA.twmd = st.twmd ∧
      stA.mappingNew = dictSet st.mappingNew (ikey sheet.title)
        (.obj [("table", .str sheet.title), ("fields", JVal.list (mfs.map cellToJVal))]) :=
  ⟨_, processSheet_build st sheet wsf fields ddl mfs ins [defaultDataWarning sheet.title] _
      h1 h2 h3 (reconcile_default st sheet.title mfs hl hin), rfl, rfl, rfl⟩

/-- Re-running the worksheet loop with the first run's final mapping
document as the original document (same reserved list) succeeds and
reproduces the same new mapping document. -/
lemma processSheets_idem :
    ∀ (sheets : List Sheet) (st1 st2 : RunState) (ws1 : List String) (stF : RunState),
      processSheets st1 sheets = (ws1, .ok stF) →
      st2.mappingOriginal = stF.mappingNew →
      st2.twmd = st1.twmd →
      st2.mappingNew = st1.mappingNew →
      (∀ t, lookupD st1.mappingNew (ikey t) ≠ Option.none →
         lookupD st1.mappingOriginal (ikey t) ≠ Option.none ∨ pyIn t st1.twmd ≠ .ok true) →
      ∃ ws2 stF2, processSheets st2 sheets = (ws2, .ok stF2) ∧
        stF2.mappingNew = stF.mappingNew := by
  intro sheets
  induction sheets with
  | nil =>
    intro st1 st2 ws1 stF h hmo htw hmn _
    have hst := Except.ok.inj (congrArg Prod.snd h)
    exact ⟨[], st2, rfl, by rw [hmn, hst]⟩
  | cons sheet rest ih =>
    intro st1 st2 ws1 stF h hmo htw hmn hHC
    obtain ⟨wa, stA, wb, hA, hR, -⟩ := processSheets_cons_ok st1 sheet rest ws1 stF h
    obtain ⟨wsf, fields, ddl, mfs, ins, wsr, str2, h1, h2, h3, h4, hwa, hstA⟩ :=
      processSheet_decomp st1 sheet wa stA hA
    cases hl : lookupD st1.mappingOriginal (ikey sheet.title) with
    | some entry =>
      cases entry with
      | null => simp [reconcile, hl, setField] at h4
      | str s => simp [reconcile, hl, setField] at h4
      | int n => simp [reconcile, hl, setField] at h4
      | float n d => simp [reconcile, hl, setField] at h4
      | bool b => simp [reconcile, hl, setField] at h4
      | list items => simp [reconcile, hl, setField] at h4
      | obj kvs =>
        obtain ⟨stA1, hA1, hAmo, hAtw, hAmn⟩ :=
          processSheet_carried st1 sheet wsf fields ddl mfs ins kvs h1 h2 h3 hl
        rw [hA] at hA1
        have hstAeq : stA1 = stA := (Except.ok.inj (congrArg Prod.snd hA1)).symm
        subst hstAeq
        -- the final document keeps the carried shape at this key
        have hM : ∃ g, lookupD stF.mappingNew (ikey sheet.title) =
            some (.obj (dictSet kvs "fields" g)) := by
          rcases processSheets_lookup (ikey sheet.title) rest stA1 wb stF hR with hL | hW
          · refine ⟨JVal.list (mfs.map cellToJVal), ?_⟩
            rw [hL, hAmn]
            exact lookupD_dictSet_same st1.mappingNew (ikey sheet.title) _
          · obtain ⟨t', fj', hkt', hsub⟩ := hW
            rcases hsub with ⟨kvs', hlk', hfin⟩ | ⟨hnone, -, -⟩
            · have hkvs : kvs' = kvs := by
                rw [hAmo, hl] at hlk'
                have h5 := Option.some.inj hlk'
                injection h5 with h6
                exact h6.symm
              subst hkvs
              exact ⟨fj', hfin⟩
            · rw [hAmo, hl] at hnone
              exact absurd hnone (by simp)
        obtain ⟨g, hMg⟩ := hM
        have hl2 : lookupD st2.mappingOriginal (ikey sheet.title) =
            some (.obj (dictSet kvs "fields" g)) := by rw [hmo]; exact hMg
        obtain ⟨stA2, hA2, hA2mo, hA2tw, hA2mn⟩ :=
          processSheet_carried st2 sheet wsf fields ddl mfs ins
            (dictSet kvs "fields" g) h1 h2 h3 hl2
        have hHC2 : ∀ t, lookupD stA1.mappingNew (ikey t) ≠ Option.none →
            lookupD stA1.mappingOriginal (ikey t) ≠ Option.none ∨
            pyIn t stA1.twmd ≠ .ok true := by
          intro t hne
          rw [hAmn] at hne
          rw [hAmo, hAtw]
          by_cases hk2 : ikey sheet.title = ikey t
          · left
            rw [← hk2, hl]
            simp
          · rw [lookupD_dictSet_ne _ _ _ _ hk2] at hne
            exact hHC t hne
        obtain ⟨wb2, stF2, hR2, hF2⟩ := ih stA1 stA2 wb stF hR
          (hA2mo.trans hmo)
          (hA2tw.trans (htw.trans hAtw.symm))
          (by rw [hA2mn, hAmn, hmn, dictSet_dictSet_same])
          hHC2
        exact ⟨(wsf ++ []) ++ wb2, stF2,
          processSheets_cons_build st2 sheet rest (wsf ++ []) stA2 wb2 _ hA2 hR2, hF2⟩
    | none =>
      cases hin : pyIn sheet.title st1.twmd with
      | error e => simp [reconcile, hl, hin] at h4
      | ok b =>
        cases b with
        | true =>
          obtain ⟨stA1, hA1, hAmo, hAtw, hAmn⟩ :=
            processSheet_skipped st1 sheet wsf fields ddl mfs ins h1 h2 h3 hl hin
          rw [hA] at hA1
          have hstAeq : stA1 = stA := (Except.ok.inj (congrArg Prod.snd hA1)).symm
          subst hstAeq
          have hmn1 : lookupD st1.mappingNew (ikey sheet.title) = Option.none := by
            cases hx : lookupD st1.mappingNew (ikey sheet.title) with
            | none => rfl
            | some v =>
              rcases hHC sheet.title (by rw [hx]; simp) with hc1 | hc2
              · exact absurd hl hc1
              · exact absurd hin hc2
          have hM : lookupD stF.mappingNew (ikey sheet.title) = Option.none := by
            rcases processSheets_lookup (ikey sheet.title) rest stA1 wb stF hR with hL | hW
            · rw [hL, hAmn]
              exact hmn1
            · obtain ⟨t', fj', hkt', hsub⟩ := hW
              have htt : sheet.title = t' := ikey_inj hkt'
              subst htt
              rcases hsub with ⟨kvs', hlk', -⟩ | ⟨-, hpy, -⟩
              · rw [hAmo, hl] at hlk'
                exact absurd hlk' (by simp)
              · rw [hAtw, hin] at hpy
                exact absurd hpy (by simp)
          obtain ⟨stA2, hA2, hA2mo, hA2tw, hA2mn⟩ :=
            processSheet_skipped st2 sheet wsf fields ddl mfs ins h1 h2 h3
              (by rw [hmo]; exact hM) (by rw [htw]; exact hin)
          obtain ⟨wb2, stF2, hR2, hF2⟩ := ih stA1 stA2 wb stF hR
            (hA2mo.trans hmo)
            (hA2tw.trans (htw.trans hAtw.symm))
            (by rw [hA2mn, hAmn, hmn])
            (by intro t hne; rw [hAmn] at hne; rw [hAmo, hAtw]; exact hHC t hne)
          exact ⟨(wsf ++ []) ++ wb2, stF2,
            processSheets_cons_build st2 sheet rest (wsf ++ []) stA2 wb2 _ hA2 hR2, hF2⟩
        | false =>
          obtain ⟨stA1, hA1, hAmo, hAtw, hAmn⟩ :=
            processSheet_defaulted st1 sheet wsf fields ddl mfs ins h1 h2 h3 hl hin
          rw [hA] at hA1
          have hstAeq : stA1 = stA := (Except.ok.inj (congrArg Prod.snd hA1)).symm
          subst hstAeq
          have hM : ∃ g, lookupD stF.mappingNew (ikey sheet.title) =
              some (.obj [("table", .str sheet.title), ("fields", g)]) := by
            rcases processSheets_lookup (ikey sheet.title) rest stA1 wb stF hR with hL | hW
            · refine ⟨JVal.list (mfs.map cellToJVal), ?_⟩
              rw [hL, hAmn]
              exact lookupD_dictSet_same st1.mappingNew (ikey sheet.title) _
            · obtain ⟨t', fj', hkt', hsub⟩ := hW
              have htt : sheet.title = t' := ikey_inj hkt'
              subst htt
              rcases hsub with ⟨kvs', hlk', -⟩ | ⟨-, -, hfin⟩
              · rw [hAmo, hl] at hlk'
                exact absurd hlk' (by simp)
              · exact ⟨fj', hfin⟩
          obtain ⟨g, hMg⟩ := hM
          have hl2 : lookupD st2.mappingOriginal (ikey sheet.title) =
              some (.obj [("table", .str sheet.title), ("fields", g)]) := by
            rw [hmo]; exact hMg
          obtain ⟨stA2, hA2, hA2mo, hA2tw, hA2mn⟩ :=
            processSheet_carried st2 sheet wsf fields ddl mfs ins
              [("table", .str sheet.title), ("fields", g)] h1 h2 h3 hl2
          have hHC2 : ∀ t, lookupD stA1.mappingNew (ikey t) ≠ Option.none →
              lookupD stA1.mappingOriginal (ikey t) ≠ Option.none ∨
              pyIn t stA1.twmd ≠ .ok true := by
            intro t hne
            rw [hAmn] at hne
            rw [hAmo, hAtw]
            by_cases hk2 : ikey sheet.title = ikey t
            · right
              have htt : sheet.title = t := ikey_inj hk2
              rw [← htt, hin]
              simp
            · rw [lookupD_dictSet_ne _ _ _ _ hk2] at hne
              exact hHC t hne
          obtain ⟨wb2, stF2, hR2, hF2⟩ := ih stA1 stA2 wb stF hR
            (hA2mo.trans hmo)
            (hA2tw.trans (htw.trans hAtw.symm))
            (by rw [hA2mn, hAmn, hmn, dictSet_pair_fields])
            hHC2
          exact ⟨(wsf ++ []) ++ wb2, stF2,
            processSheets_cons_build st2 sheet rest (wsf ++ []) stA2 wb2 _ hA2 hR2, hF2⟩

/-! ### Claim theorems: mapping reconciliation -/

/-- C5 counterexample: the original `Insert T` entry is carried forward for
the duplicate-name worksheet, but its `fields` attribute becomes the empty
list although the worksheet's second field (`Id`, non-pk) is a
non-primary-key field — the claim's "non-primary-key field names in header
order" would be `['Id']`. -/
theorem mapping_fields_cex :
    xlsxToSql dupIdInput = ([], .ok { sql := dupSql, mapping := dupOutMapping })
  ∧ collectFields (dupIdSheet.rows.headD []) = ([], .ok dupIdFields)
  ∧ dupIdFields.get? 1 = some (.str "Id", { type := "INTEGER", not_null := false, pk := false })
  ∧ JVal.list [] ≠ JVal.list [cellToJVal (.str "Id")] := by
  refine ⟨rfl, rfl, rfl, ?_⟩
  intro h
  injection h with h2
  exact List.noConfusion h2

/-- C5 (amended): a mapping entry that exists in the original document and
whose table is discovered appears in the new document under the same block
key with all attributes other than `fields` preserved verbatim and
`fields` overwritten with the list of field names the worksheet emitted
double-quoted — which, provided no field after the primary-key field has a
name Python-equal to the pk's name, is exactly the non-primary-key field
names in header order. -/
theorem mapping_roundtrip_amended :
    ∀ (input : Input) (ws : List String) (out : Output) (twmd : JVal)
      (morig : List (String × JVal)) (pre : List Sheet) (s : Sheet) (post : List Sheet)
      (kvs : List (String × JVal)) (fpre : List (CellValue × FieldMetadata))
      (pname : CellValue) (pmd : FieldMetadata) (fpost : List (CellValue × FieldMetadata))
      (wsf : List String),
      popKey twmdKey input.description = (some twmd, morig) →
      xlsxToSql input = (ws, .ok out) →
      input.sheets = pre ++ s :: post →
      (∀ s2 ∈ post, s2.title ≠ s.title) →
      lookupD morig (ikey s.title) = some (.obj kvs) →
      collectFields (s.rows.headD []) = (wsf, .ok (fpre ++ (pname, pmd) :: fpost)) →
      pmd.pk = true →
      (∀ f ∈ fpre, f.2.pk = false) → (∀ f ∈ fpost, f.2.pk = false) →
      (∀ f ∈ fpost, pyEq pname f.1 = false) →
      lookupD out.mapping (ikey s.title) =
        some (.obj (dictSet kvs "fields"
          (JVal.list ((fpre.map Prod.fst ++ fpost.map Prod.fst).map cellToJVal))))
      ∧ (∀ a, a ≠ "fields" →
          lookupD (dictSet kvs "fields"
            (JVal.list ((fpre.map Prod.fst ++ fpost.map Prod.fst).map cellToJVal))) a =
          lookupD kvs a) := by
  intro input ws out twmd morig pre s post kvs fpre pname pmd fpost wsf
  intro hpop hrun hsheets hpost hok hcf hpk hp1 hp2 hp3
  refine ⟨?_, fun a ha => lookupD_dictSet_ne kvs "fields" a _ (fun he => ha he.symm)⟩
  cases hps : processSheets
      { mappingOriginal := morig, twmd := twmd,
        preserved := morig.map (fun kv => (kv.1, false)),
        mappingNew := [], sql := "BEGIN TRANSACTION;\n" } input.sheets with
  | mk ws0 r0 =>
  cases r0 with
  | error e =>
    have hx : xlsxToSql input = (ws0, .error e) := by
      simp only [xlsxToSql, hpop, hps]
    rw [hx] at hrun
    simp at hrun
  | ok stF =>
    have hx : xlsxToSql input =
        (ws0 ++ orphanWarnings stF.mappingOriginal stF.preserved,
         .ok { sql := stF.sql ++ "COMMIT;\n", mapping := stF.mappingNew }) := by
      simp only [xlsxToSql, hpop, hps]
    rw [hx] at hrun
    have hout := Except.ok.inj (congrArg Prod.snd hrun)
    have houtm : out.mapping = stF.mappingNew := by rw [← hout]
    rw [hsheets] at hps
    obtain ⟨w1, stM, w2, hpre, hrest, -⟩ :=
      processSheets_append_ok pre (s :: post) _ ws0 stF hps
    obtain ⟨wa, stS, wb, hS, hpostRun, -⟩ := processSheets_cons_ok stM s post w2 stF hrest
    obtain ⟨wsf2, fields2, ddl, mfs, ins, ws2, st2, h1, h2, h3, h4, -, hstS⟩ :=
      processSheet_decomp stM s wa stS hS
    rw [hcf] at h1
    have hfields : fields2 = fpre ++ (pname, pmd) :: fpost :=
      (Except.ok.inj (congrArg Prod.snd h1)).symm
    subst hfields
    have hbt := buildTable_shape s.title fpre pname pmd fpost hpk hp1 hp2 hp3
    rw [hbt] at h2
    have hmfs : mfs = fpre.map Prod.fst ++ fpost.map Prod.fst := by
      have := Except.ok.inj h2
      exact (congrArg Prod.snd this).symm
    have hMorig : stM.mappingOriginal = morig := by
      have := (processSheets_orig_twmd pre _ w1 stM hpre).1
      simpa using this
    have hlook : lookupD stM.mappingOriginal (ikey s.title) = some (.obj kvs) := by
      rw [hMorig]; exact hok
    rw [reconcile_carried stM s.title mfs kvs hlook] at h4
    have hst2 := Except.ok.inj (congrArg Prod.snd h4)
    have hkeys : ∀ s2 ∈ post, ikey s2.title ≠ ikey s.title :=
      fun s2 hs2 he => hpost s2 hs2 (ikey_inj he)
    have hnt := (processSheets_not_touched (ikey s.title) post stS wb stF hkeys hpostRun).1
    rw [houtm, hnt, hstS]
    have hs2 : stS.sql = stM.sql ++ ddl ++ ins := by rw [hstS]
    show lookupD ({ st2 with sql := stM.sql ++ ddl ++ ins } : RunState).mappingNew _ = _
    have hmn : ({ st2 with sql := stM.sql ++ ddl ++ ins } : RunState).mappingNew =
        st2.mappingNew := rfl
    rw [hmn, ← hst2]
    show lookupD (dictSet stM.mappingNew (ikey s.title)
      (.obj (dictSet kvs "fields" (JVal.list (mfs.map cellToJVal))))) (ikey s.title) = _
    rw [lookupD_dictSet_same, hmfs]

/-- C5 witness: the amended round-trip theorem applied to `carriedInput`:
the `Insert Account` entry is carried forward with `fields` overwritten to
`['Name']` and the passthrough attribute `extra` unchanged. -/
theorem mapping_roundtrip_amended_wit :
    lookupD [("Insert Account",
        JVal.obj [("sf_object", .str "Account"), ("fields", .list [.str "Name"]), ("extra", .int 7)])]
      (ikey "Account") =
      some (.obj (dictSet carriedKvs "fields"
        (JVal.list (([] ++ [CellValue.str "Name"]).map cellToJVal))))
  ∧ lookupD (dictSet carriedKvs "fields"
        (JVal.list (([] ++ [CellValue.str "Name"]).map cellToJVal))) "extra" =
      lookupD carriedKvs "extra" := by
  have h := mapping_roundtrip_amended carriedInput []
    { sql := accountSql,
      mapping := [("Insert Account",
        JVal.obj [("sf_object", .str "Account"), ("fields", .list [.str "Name"]), ("extra", .int 7)])] }
    (.list []) [("Insert Account", .obj carriedKvs)] [] accountSheet [] carriedKvs
    [] (.str "Id") accountIdMeta [(.str "Name", accountNameMeta)] []
    rfl rfl rfl (by simp) rfl rfl rfl (by simp) (by decide) (by decide)
  exact ⟨h.1, h.2 "extra" (by decide)⟩

/-- C6 counterexample: feeding the reconciled mapping document of a
successful run back verbatim as the original document does not yield the
same document again — the run fails at once with the missing-reserved-list
error, because the reserved `tables_without_mapping_data` key is consumed
from the input and never written to the output. -/
theorem idempotence_cex :
    xlsxToSql idemInput =
      ([defaultDataWarning "Account"], .ok { sql := accountSql, mapping := idemMapping })
  ∧ xlsxToSql idemRerunInput = ([], .error (.xlsxParseError twmdMissingMsg)) :=
  ⟨rfl, rfl⟩

/-- C6 (amended): re-running the conversion on the same spreadsheet with
the first run's reconciled mapping document — augmented with the same
reserved `tables_without_mapping_data` entry — as the original document
succeeds and yields the same new mapping document, with no further
attribute drift. -/
theorem idempotence_amended :
    ∀ (input : Input) (ws : List String) (out : Output) (twmd : JVal)
      (morig : List (String × JVal)),
      popKey twmdKey input.description = (some twmd, morig) →
      xlsxToSql input = (ws, .ok out) →
      ∃ ws2 out2,
        xlsxToSql (rerunInput twmd out.mapping input.sheets) =
          (ws2, .ok out2) ∧ out2.mapping = out.mapping := by
  intro input ws out twmd morig hpop hrun
  cases hps : processSheets
      { mappingOriginal := morig, twmd := twmd,
        preserved := morig.map (fun kv => (kv.1, false)),
        mappingNew := [], sql := "BEGIN TRANSACTION;\n" } input.sheets with
  | mk ws0 r0 =>
  cases r0 with
  | error e =>
    have hx : xlsxToSql input = (ws0, .error e) := by
      simp only [xlsxToSql, hpop, hps]
    rw [hx] at hrun
    simp at hrun
  | ok stF =>
    have hx : xlsxToSql input =
        (ws0 ++ orphanWarnings stF.mappingOriginal stF.preserved,
         .ok { sql := stF.sql ++ "COMMIT;\n", mapping := stF.mappingNew }) := by
      simp only [xlsxToSql, hpop, hps]
    rw [hx] at hrun
    have hout := Except.ok.inj (congrArg Prod.snd hrun)
    have houtm : out.mapping = stF.mappingNew := by rw [← hout]
    obtain ⟨ws2, stF2, hps2, hmn2⟩ := processSheets_idem input.sheets
      { mappingOriginal := morig, twmd := twmd,
        preserved := morig.map (fun kv => (kv.1, false)),
        mappingNew := [], sql := "BEGIN TRANSACTION;\n" }
      { mappingOriginal := out.mapping, twmd := twmd,
        preserved := out.mapping.map (fun kv => (kv.1, false)),
        mappingNew := [], sql := "BEGIN TRANSACTION;\n" }
      ws0 stF hps houtm rfl rfl
      (by intro t ht; exact absurd rfl ht)
    have hpop2 : popKey twmdKey ((twmdKey, twmd) :: out.mapping) =
        (some twmd, out.mapping) := by simp [popKey]
    have hx2 : xlsxToSql (rerunInput twmd out.mapping input.sheets) =
        (ws2 ++ orphanWarnings stF2.mappingOriginal stF2.preserved,
         .ok { sql := stF2.sql ++ "COMMIT;\n", mapping := stF2.mappingNew }) := by
      simp only [rerunInput, xlsxToSql, hpop2, hps2]
    refine ⟨ws2 ++ orphanWarnings stF2.mappingOriginal stF2.preserved,
      { sql := stF2.sql ++ "COMMIT;\n", mapping := stF2.mappingNew }, hx2, ?_⟩
    show stF2.mappingNew = out.mapping
    rw [hmn2, ← houtm]

/-- C6 witness: the amended idempotence theorem applied to the Account
run: re-running with the produced document plus the reserved entry yields
the same document. -/
theorem idempotence_amended_wit :
    ∃ ws2 out2,
      xlsxToSql (rerunInput (JVal.list []) idemMapping [accountSheet]) =
        (ws2, .ok out2) ∧ out2.mapping = idemMapping :=
  idempotence_amended idemInput [defaultDataWarning "Account"]
    { sql := accountSql, mapping := idemMapping } (JVal.list []) [] rfl rfl

/-- C7: an original entry never matched by any worksheet title yields an
orphan warning echoing its content, and its block key is absent from the
new mapping document. -/
theorem orphan_entry_dropped :
    ∀ (input : Input) (ws : List String) (out : Output) (twmd : JVal)
      (morig : List (String × JVal)) (k : String) (v : JVal),
      popKey twmdKey input.description = (some twmd, morig) →
      lookupD morig k = some v →
      (∀ s ∈ input.sheets, ikey s.title ≠ k) →
      xlsxToSql input = (ws, .ok out) →
      orphanWarning k v ∈ ws ∧ lookupD out.mapping k = Option.none := by
  intro input ws out twmd morig k v hpop hk hnc hrun
  cases hps : processSheets
      { mappingOriginal := morig, twmd := twmd,
        preserved := morig.map (fun kv => (kv.1, false)),
        mappingNew := [], sql := "BEGIN TRANSACTION;\n" } input.sheets with
  | mk ws0 r0 =>
  cases r0 with
  | error e =>
    have hx : xlsxToSql input = (ws0, .error e) := by
      simp only [xlsxToSql, hpop, hps]
    rw [hx] at hrun
    simp at hrun
  | ok stF =>
    have hx : xlsxToSql input =
        (ws0 ++ orphanWarnings stF.mappingOriginal stF.preserved,
         .ok { sql := stF.sql ++ "COMMIT;\n", mapping := stF.mappingNew }) := by
      simp only [xlsxToSql, hpop, hps]
    rw [hx] at hrun
    have hout := Except.ok.inj (congrArg Prod.snd hrun)
    have houtm : out.mapping = stF.mappingNew := by rw [← hout]
    have hws : ws = ws0 ++ orphanWarnings stF.mappingOriginal stF.preserved :=
      (congrArg Prod.fst hrun).symm
    obtain ⟨hnt1, hnt2⟩ := processSheets_not_touched k input.sheets _ ws0 stF hnc hps
    have hMorig : stF.mappingOriginal = morig := by
      have := (processSheets_orig_twmd input.sheets _ ws0 stF hps).1
      simpa using this
    have hpres : lookupD stF.preserved k = some false := by
      rw [hnt2]
      show lookupD (morig.map (fun kv => (kv.1, false))) k = some false
      rw [lookupD_map_const, hk]
      rfl
    constructor
    · rw [hws]
      refine List.mem_append_right ws0 ?_
      rw [hMorig]
      exact orphanWarnings_mem morig stF.preserved k v hk hpres
    · rw [houtm, hnt1]
      rfl

/-- C7 witness: the orphaned `Insert Contact` entry of `orphanInput` is
warned about and dropped. -/
theorem orphan_entry_dropped_wit :
    orphanWarning "Insert Contact" orphanEntry ∈
      [orphanWarning "Insert Contact" orphanEntry]
  ∧ lookupD ([] : List (String × JVal)) "Insert Contact" = Option.none :=
  orphan_entry_dropped orphanInput [orphanWarning "Insert Contact" orphanEntry]
    { sql := accountSql, mapping := [] } (.list [.str "Account"])
    [("Insert Contact", orphanEntry)] "Insert Contact" orphanEntry
    rfl rfl (by decide) rfl

/-! ### Claim theorems: output discipline -/

/-- C8: on a run that ends in a fatal error the event trace holds only
warnings — neither the SQL file nor the mapping file is written; the file
writes occur only at the end of a fully successful run. -/
theorem no_partial_output :
    ∀ (input : Input) (e : Err), (runEvents input).2 = .error e →
      ∀ ev ∈ (runEvents input).1, ∃ m, ev = Event.warn m := by
  intro input e h ev hev
  cases hx : xlsxToSql input with
  | mk ws r =>
  cases r with
  | ok out =>
    have : (runEvents input).2 = .ok () := by simp [runEvents, hx]
    rw [this] at h
    exact absurd h (by simp)
  | error e2 =>
    have hev2 : ev ∈ ws.map Event.warn := by
      have : (runEvents input).1 = ws.map Event.warn := by simp [runEvents, hx]
      rwa [this] at hev
    obtain ⟨m, -, hm⟩ := List.mem_map.mp hev2
    exact ⟨m, hm.symm⟩

/-- C8 witness: a run that warns about a missing comment and then fails on
the missing primary key has a trace of warnings only. -/
theorem no_partial_output_wit :
    (runEvents warnErrInput).2 = .error (.xlsxParseError (noPkMsg "W"))
  ∧ (∃ m, Event.warn (noCommentWarning (.str "X")) = Event.warn m) := by
  refine ⟨rfl, ?_⟩
  refine no_partial_output warnErrInput (.xlsxParseError (noPkMsg "W")) rfl
    (Event.warn (noCommentWarning (.str "X"))) ?_
  have h : (runEvents warnErrInput).1 = [Event.warn (noCommentWarning (.str "X"))] := rfl
  rw [h]
  exact List.mem_singleton.mpr rfl

end IceTea
